import Mathlib

/-!
Verification of the news-analysis ingestion and retention pipeline of
`chat_app_django` (securities/services/news_data_transformer.py,
securities/models.py, ai_agents/services.py,
securities/management/commands/update_news_summaries.py).

The Python code is shallowly embedded: Django model tables become lists of
row structures inside a `Store`, the ORM operations used by the pipeline
(`get_or_create`, `update_or_create`, `filter`, `create`, `delete`,
`order_by`) become pure functions on the `Store`, raised exceptions become
`Except` values, and `@transaction.atomic` becomes commit-on-ok /
keep-the-old-store-on-error.
-/

/-! ## Calendar dates (`datetime.date`) -/

/-- A Python `datetime.date` value. -/
structure PyDate where
  year : Nat
  month : Nat
  day : Nat
deriving Repr, DecidableEq

/-- Leap-year test used by `datetime.date` (proleptic Gregorian). -/
def isLeapYear (y : Nat) : Bool :=
  y % 4 == 0 && (y % 100 != 0 || y % 400 == 0)

/-- Number of days in a month, as validated by the `datetime.date` constructor. -/
def daysInMonth (y m : Nat) : Nat :=
  if m == 2 then (if isLeapYear y then 29 else 28)
  else if m == 4 || m == 6 || m == 9 || m == 11 then 30
  else 31

/-- The validation performed by the `datetime.date(year, month, day)`
constructor: it raises `ValueError` exactly when this is `false`
(`MINYEAR = 1`, `MAXYEAR = 9999`). -/
def dateOk (y m d : Nat) : Bool :=
  1 ≤ y && y ≤ 9999 && 1 ≤ m && m ≤ 12 && 1 ≤ d && d ≤ daysInMonth y m

/-! ## Character helpers (Python `str.strip`, digits) -/

/-- Python `str.strip()` whitespace set (ASCII part). -/
def isPySpace (c : Char) : Bool :=
  c == ' ' || c == '\t' || c == '\n' || c == '\r' || c == '\x0b' || c == '\x0c'

/-- Python `str.strip()` on a character list. -/
def pyStrip (cs : List Char) : List Char :=
  ((cs.dropWhile isPySpace).reverse.dropWhile isPySpace).reverse

/-- Numeric value of one decimal digit. -/
def digitVal (c : Char) : Nat := c.toNat - '0'.toNat

/-! ## `datetime.strptime` for the five formats tried by the source

`NewsDataTransformer.parse_date_string` tries, in order:
`"%Y-%m-%d"`, `"%m/%d/%Y"`, `"%B %d, %Y"`, `"%b %d, %Y"`,
`"%Y-%m-%d %H:%M:%S"`, each inside `try/except ValueError`.  CPython's
`_strptime` compiles each directive to a regular expression
(`%Y` = four digits, `%m` = `1[0-2]|0[1-9]|[1-9]`,
`%d` = `3[01]|[12]\d|0[1-9]|[1-9]`, `%H` = `2[0-3]|[0-1]\d|\d`,
`%M`/`%S` = `[0-5]\d|\d`, a space matches a run of whitespace, month names
match case-insensitively), requires the whole string to be consumed, and
finally builds a `datetime` whose constructor validates the calendar day.
Any failure raises `ValueError`, which the source catches; so each format
attempt is embedded as an `Option PyDate` where `none` covers both
"no match" and "matched but invalid date". -/

/-- Match exactly `n` decimal digits, returning their value. -/
def takeDigits : Nat → List Char → Option (Nat × List Char)
  | 0, cs => some (0, cs)
  | n + 1, c :: cs =>
      if c.isDigit then
        match takeDigits n cs with
        | some (v, rest) => some (digitVal c * 10 ^ n + v, rest)
        | none => none
      else none
  | _ + 1, [] => none

/-- Match one literal character. -/
def matchLit (c : Char) : List Char → Option (List Char)
  | d :: cs => if d == c then some cs else none
  | [] => none

/-- Match a nonempty run of whitespace (a space in a `strptime` format). -/
def matchWs : List Char → Option (List Char)
  | c :: cs => if isPySpace c then some (cs.dropWhile isPySpace) else none
  | [] => none

/-- `%m`: `1[0-2]|0[1-9]|[1-9]` (a non-digit always follows in the
formats used by the source, so ordered matching needs no backtracking). -/
def matchMonthNum : List Char → Option (Nat × List Char)
  | c1 :: c2 :: rest =>
      if c1 == '1' && ('0' ≤ c2 && c2 ≤ '2') then some (10 + digitVal c2, rest)
      else if c1 == '0' && ('1' ≤ c2 && c2 ≤ '9') then some (digitVal c2, rest)
      else if '1' ≤ c1 && c1 ≤ '9' then some (digitVal c1, c2 :: rest)
      else none
  | [c1] => if '1' ≤ c1 && c1 ≤ '9' then some (digitVal c1, []) else none
  | [] => none

/-- `%d`: `3[01]|[12]\d|0[1-9]|[1-9]`. -/
def matchDayNum : List Char → Option (Nat × List Char)
  | c1 :: c2 :: rest =>
      if c1 == '3' && ('0' ≤ c2 && c2 ≤ '1') then some (30 + digitVal c2, rest)
      else if ('1' ≤ c1 && c1 ≤ '2') && c2.isDigit then
        some (digitVal c1 * 10 + digitVal c2, rest)
      else if c1 == '0' && ('1' ≤ c2 && c2 ≤ '9') then some (digitVal c2, rest)
      else if '1' ≤ c1 && c1 ≤ '9' then some (digitVal c1, c2 :: rest)
      else none
  | [c1] => if '1' ≤ c1 && c1 ≤ '9' then some (digitVal c1, []) else none
  | [] => none

/-- `%H`: `2[0-3]|[0-1]\d|\d`. -/
def matchHourNum : List Char → Option (Nat × List Char)
  | c1 :: c2 :: rest =>
      if c1 == '2' && ('0' ≤ c2 && c2 ≤ '3') then some (20 + digitVal c2, rest)
      else if ('0' ≤ c1 && c1 ≤ '1') && c2.isDigit then
        some (digitVal c1 * 10 + digitVal c2, rest)
      else if c1.isDigit then some (digitVal c1, c2 :: rest)
      else none
  | [c1] => if c1.isDigit then some (digitVal c1, []) else none
  | [] => none

/-- `%M` and `%S`: `[0-5]\d|\d`. -/
def matchSixtyNum : List Char → Option (Nat × List Char)
  | c1 :: c2 :: rest =>
      if ('0' ≤ c1 && c1 ≤ '5') && c2.isDigit then
        some (digitVal c1 * 10 + digitVal c2, rest)
      else if c1.isDigit then some (digitVal c1, c2 :: rest)
      else none
  | [c1] => if c1.isDigit then some (digitVal c1, []) else none
  | [] => none

/-- Full month names with their numbers (`%B`), matched case-insensitively. -/
def fullMonthNames : List (List Char × Nat) :=
  [("january".data, 1), ("february".data, 2), ("march".data, 3),
   ("april".data, 4), ("may".data, 5), ("june".data, 6), ("july".data, 7),
   ("august".data, 8), ("september".data, 9), ("october".data, 10),
   ("november".data, 11), ("december".data, 12)]

/-- Abbreviated month names with their numbers (`%b`), matched
case-insensitively. -/
def abbrMonthNames : List (List Char × Nat) :=
  [("jan".data, 1), ("feb".data, 2), ("mar".data, 3), ("apr".data, 4),
   ("may".data, 5), ("jun".data, 6), ("jul".data, 7), ("aug".data, 8),
   ("sep".data, 9), ("oct".data, 10), ("nov".data, 11), ("dec".data, 12)]

/-- Match a month name from the given table, case-insensitively. -/
def matchMonthName : List (List Char × Nat) → List Char → Option (Nat × List Char)
  | [], _ => none
  | (name, num) :: rest, cs =>
      if (cs.take name.length).map Char.toLower == name then
        some (num, cs.drop name.length)
      else matchMonthName rest cs

/-- `strptime(s, "%Y-%m-%d").date()`. -/
def fmtYmd (cs : List Char) : Option PyDate := do
  let (y, r1) ← takeDigits 4 cs
  let r2 ← matchLit '-' r1
  let (m, r3) ← matchMonthNum r2
  let r4 ← matchLit '-' r3
  let (d, r5) ← matchDayNum r4
  if r5.isEmpty && dateOk y m d then pure ⟨y, m, d⟩ else none

/-- `strptime(s, "%m/%d/%Y").date()`. -/
def fmtMdy (cs : List Char) : Option PyDate := do
  let (m, r1) ← matchMonthNum cs
  let r2 ← matchLit '/' r1
  let (d, r3) ← matchDayNum r2
  let r4 ← matchLit '/' r3
  let (y, r5) ← takeDigits 4 r4
  if r5.isEmpty && dateOk y m d then pure ⟨y, m, d⟩ else none

/-- `strptime(s, "%B %d, %Y").date()` (full month name). -/
def fmtLongMonth (cs : List Char) : Option PyDate := do
  let (m, r1) ← matchMonthName fullMonthNames cs
  let r2 ← matchWs r1
  let (d, r3) ← matchDayNum r2
  let r4 ← matchLit ',' r3
  let r5 ← matchWs r4
  let (y, r6) ← takeDigits 4 r5
  if r6.isEmpty && dateOk y m d then pure ⟨y, m, d⟩ else none

/-- `strptime(s, "%b %d, %Y").date()` (abbreviated month name). -/
def fmtAbbrMonth (cs : List Char) : Option PyDate := do
  let (m, r1) ← matchMonthName abbrMonthNames cs
  let r2 ← matchWs r1
  let (d, r3) ← matchDayNum r2
  let r4 ← matchLit ',' r3
  let r5 ← matchWs r4
  let (y, r6) ← takeDigits 4 r5
  if r6.isEmpty && dateOk y m d then pure ⟨y, m, d⟩ else none

/-- `strptime(s, "%Y-%m-%d %H:%M:%S").date()` (the time part is range
checked by the directives and then discarded by `.date()`). -/
def fmtYmdHms (cs : List Char) : Option PyDate := do
  let (y, r1) ← takeDigits 4 cs
  let r2 ← matchLit '-' r1
  let (m, r3) ← matchMonthNum r2
  let r4 ← matchLit '-' r3
  let (d, r5) ← matchDayNum r4
  let r6 ← matchWs r5
  let (_, r7) ← matchHourNum r6
  let r8 ← matchLit ':' r7
  let (_, r9) ← matchSixtyNum r8
  let r10 ← matchLit ':' r9
  let (_, r11) ← matchSixtyNum r10
  if r11.isEmpty && dateOk y m d then pure ⟨y, m, d⟩ else none

/-- The `for fmt in formats: try ... except ValueError: continue` loop of
`parse_date_string`, over the stripped input. -/
def tryFormats (cs : List Char) : Option PyDate :=
  (fmtYmd cs).orElse fun _ =>
    (fmtMdy cs).orElse fun _ =>
      (fmtLongMonth cs).orElse fun _ =>
        (fmtAbbrMonth cs).orElse fun _ => fmtYmdHms cs

/-! ## Exceptions and the Django date fallback -/

/-- Injectable failure points inside `save_analysis_to_db`, one per
pipeline step (used to model "an error is raised inside this step"). -/
inductive Step
  | sentiment
  | summaryUpsert
  | highlightReplace
  | newsMerge
  | newsTrim
  | eventAppend
  | eventTrim
deriving Repr, DecidableEq

/-- Python exceptions surfacing in the embedded code. -/
inductive PyErr
  | valueError
  | doesNotExist
  | multipleObjectsReturned
  | injected (s : Step)
deriving Repr, DecidableEq

/-- All digits? (segment of Django's `date_re`). -/
def allDigits (cs : List Char) : Bool := cs.all Char.isDigit

/-- Decimal value of a digit list (Python `int` on a matched group). -/
def digitsVal (cs : List Char) : Nat :=
  cs.foldl (fun a c => a * 10 + digitVal c) 0

/-- `django.utils.dateparse.parse_date`: matches
`(?P<year>\d{4})-(?P<month>\d{1,2})-(?P<day>\d{1,2})$` and builds
`datetime.date(**kw)`.  Per its documentation it returns `None` when the
input is not well formatted, and raises `ValueError` when the input is
well formatted but not a valid date. -/
def django_parse_date (cs : List Char) : Except PyErr (Option PyDate) :=
  match cs.splitOn '-' with
  | [ys, ms, ds] =>
      if ys.length == 4 && allDigits ys &&
         (1 ≤ ms.length && ms.length ≤ 2) && allDigits ms &&
         (1 ≤ ds.length && ds.length ≤ 2) && allDigits ds then
        if dateOk (digitsVal ys) (digitsVal ms) (digitsVal ds) then
          .ok (some ⟨digitsVal ys, digitsVal ms, digitsVal ds⟩)
        else .error .valueError
      else .ok none
  | _ => .ok none

/-- `NewsDataTransformer.parse_date_string` (news_data_transformer.py,
lines 34-72): returns the parsed date, `None` when nothing matched, or
propagates the `ValueError` that `django.utils.dateparse.parse_date`
raises for a well-formatted but invalid date (that call is outside any
`try/except`). -/
def parse_date_string (date_str : String) : Except PyErr (Option PyDate) :=
  if date_str == "" then .ok none
  else
    let cs := pyStrip date_str.data
    match tryFormats cs with
    | some d => .ok (some d)
    | none =>
        match django_parse_date cs with
        | .ok (some d) => .ok (some d)
        | .ok none => .ok none
        | .error e => .error e


/-! ## Input schemas (`ai_agents` Pydantic models)

Mirrors the Pydantic classes of `ai_agents/schemas.py` (the module
imported by the transformer under the name
`ai_agents.schemas.news_schemas` declares the same shape, plus the
`favicon` field read by the transformer and an optional
`confidence_level`, which the transformer reads with
`getattr(..., "confidence_level", None)`). -/

/-- Pydantic `NewsItem` (an incoming news item). -/
structure NewsItemIn where
  headline : String
  date : String
  source : String
  url : String
  favicon : String
  impact_level : String
  summary : String
deriving Repr, DecidableEq

/-- Pydantic `SentimentAnalysis`. -/
structure SentimentAnalysisIn where
  sentiment : String
  rationale : String
  confidence_level : Option String
deriving Repr, DecidableEq

/-- Pydantic `UpcomingEvent` (an incoming event). -/
structure UpcomingEventIn where
  event : String
  date : String
  category : String
  importance : String
deriving Repr, DecidableEq

/-- Pydantic `StructuredStockAnalysis`. -/
structure StructuredStockAnalysis where
  summary : String
  key_highlights : List String
  overall_sentiment : SentimentAnalysisIn
  executive_summary : String
  recent_news : List NewsItemIn
  key_metrics : List (String × String)
  positive_catalysts : String
  risk_factors : String
  upcoming_events : List UpcomingEventIn
  disclaimer : String
deriving Repr, DecidableEq

/-! ## Database rows (`securities/models.py`)

Surrogate primary keys are drawn from a store-wide counter `next_id`;
`created_at` (`auto_now_add=True`) is drawn from a store-wide logical
clock that advances on every row insertion, so later inserts always have
strictly larger `created_at`. -/

/-- `Security` (the fields the pipeline reads; `symbol` is declared
`unique=True` in the model). -/
structure SecurityRow where
  id : Nat
  symbol : String
  is_active : Bool
deriving Repr, DecidableEq

/-- `OverallSentiment` row.  The model declares `choices` on `sentiment`
and `confidence_level` but no uniqueness constraint on any field. -/
structure SentimentRow where
  id : Nat
  sentiment : String
  rationale : String
  confidence_level : Option String
deriving Repr, DecidableEq

/-- `SecurityNewsSummary` row (`security` is a `OneToOneField`). -/
structure SummaryRow where
  id : Nat
  security_id : Nat
  executive_summary : String
  summary : String
  positive_catalysts : String
  risk_factors : String
  overall_sentiment_id : Nat
  key_metrics : List (String × String)
  disclaimer : String
deriving Repr, DecidableEq

/-- `KeyHighlight` row. -/
structure HighlightRow where
  id : Nat
  summary_id : Nat
  highlight : String
  order : Nat
deriving Repr, DecidableEq

/-- `NewsItem` row.  `url` is a plain `URLField` — models.py declares no
uniqueness constraint on it. -/
structure NewsRow where
  id : Nat
  security_id : Nat
  headline : String
  date : PyDate
  source : String
  url : String
  favicon : String
  impact_level : String
  summary : String
  created_at : Nat
deriving Repr, DecidableEq

/-- `UpcomingEvent` row (`date` is a `CharField`, stored verbatim). -/
structure EventRow where
  id : Nat
  security_id : Nat
  event : String
  date : String
  category : String
  importance : String
  created_at : Nat
deriving Repr, DecidableEq

/-- The persistent store: one list per table, plus the id counter and the
insertion clock. -/
structure Store where
  securities : List SecurityRow
  sentiments : List SentimentRow
  summaries : List SummaryRow
  highlights : List HighlightRow
  news_items : List NewsRow
  events : List EventRow
  next_id : Nat
  clock : Nat
deriving Repr, DecidableEq

/-! ## Declared storage-layer uniqueness constraints

`securities/models.py` declares `unique=True` on exactly one field among
those the pipeline touches: `Security.symbol`.  In particular
`NewsItem.url = models.URLField(...)` carries no `unique` flag, and
`OverallSentiment` has no unique constraint on `(sentiment, rationale)`. -/

/-- A (model, field, unique?) entry of the Django schema. -/
structure ModelField where
  model : String
  field : String
  unique : Bool
deriving Repr, DecidableEq

/-- Uniqueness declarations read off `securities/models.py` for the
fields used as identities or dedup keys by the ingestion pipeline. -/
def declared_unique_fields : List ModelField :=
  [⟨"Security", "symbol", true⟩,
   ⟨"OverallSentiment", "sentiment", false⟩,
   ⟨"OverallSentiment", "rationale", false⟩,
   ⟨"SecurityNewsSummary", "security", true⟩,
   ⟨"NewsItem", "url", false⟩,
   ⟨"UpcomingEvent", "date", false⟩]

/-! ## The ingestion steps (news_data_transformer.py) -/

/-- Configurable retention defaults (settings do not override them). -/
def MAX_NEWS_ITEMS_PER_SECURITY : Int := 20

/-- Default retention cap for upcoming events. -/
def MAX_UPCOMING_EVENTS_PER_SECURITY : Int := 20

/-- `max_items if max_items is not None else default`. -/
def effectiveMax (override : Option Int) (dflt : Int) : Int :=
  match override with
  | some v => v
  | none => dflt

/-- Step 1 (lines 99-113): `OverallSentiment.objects.get_or_create(
sentiment=..., rationale=..., defaults={"confidence_level": ...})`.
Django `get_or_create` first runs `get`, which raises
`MultipleObjectsReturned` when several rows match; on `DoesNotExist` it
creates the row with the match fields plus the defaults.  Returns the
store, the row id and the `created` flag. -/
def sentiment_get_or_create (st : Store) (sa : SentimentAnalysisIn) :
    Except PyErr (Store × Nat × Bool) :=
  match st.sentiments.filter
      (fun r => r.sentiment == sa.sentiment && r.rationale == sa.rationale) with
  | [] =>
      .ok ({ st with
              sentiments := st.sentiments ++
                [⟨st.next_id, sa.sentiment, sa.rationale, sa.confidence_level⟩],
              next_id := st.next_id + 1 },
           st.next_id, true)
  | [r] => .ok (st, r.id, false)
  | _ :: _ :: _ => .error .multipleObjectsReturned

/-- Step 2 (lines 116-127): `SecurityNewsSummary.objects.update_or_create(
security=security, defaults={...})`: update every summary field of the
existing row in place, or create the row. -/
def summary_update_or_create (st : Store) (secId : Nat)
    (a : StructuredStockAnalysis) (sentId : Nat) :
    Except PyErr (Store × Nat × Bool) :=
  match st.summaries.filter (fun r => r.security_id == secId) with
  | [] =>
      .ok ({ st with
              summaries := st.summaries ++
                [⟨st.next_id, secId, a.executive_summary, a.summary,
                  a.positive_catalysts, a.risk_factors, sentId,
                  a.key_metrics, a.disclaimer⟩],
              next_id := st.next_id + 1 },
           st.next_id, true)
  | [r] =>
      .ok ({ st with
              summaries := st.summaries.map (fun q =>
                if q.id == r.id then
                  { q with
                    executive_summary := a.executive_summary,
                    summary := a.summary,
                    positive_catalysts := a.positive_catalysts,
                    risk_factors := a.risk_factors,
                    overall_sentiment_id := sentId,
                    key_metrics := a.key_metrics,
                    disclaimer := a.disclaimer }
                else q) },
           r.id, false)
  | _ :: _ :: _ => .error .multipleObjectsReturned

/-- The `for order, highlight in enumerate(...)` creation loop of step 3. -/
def create_highlights (sumId : Nat) : Store → List (Nat × String) → Store
  | st, [] => st
  | st, (ord, h) :: rest =>
      create_highlights sumId
        { st with
          highlights := st.highlights ++ [⟨st.next_id, sumId, h, ord⟩],
          next_id := st.next_id + 1 }
        rest

/-- Step 3 (lines 134-140): delete every `KeyHighlight` of the summary,
then recreate one row per highlight with `order = ` list index. -/
def key_highlights_replace (st : Store) (sumId : Nat) (hs : List String) : Store :=
  create_highlights sumId
    { st with highlights := st.highlights.filter (fun h => !(h.summary_id == sumId)) }
    hs.enum

/-- `NewsItem.objects.filter(url=...).exists()` — the dedup check is
global, not scoped to the security. -/
def url_exists (st : Store) (u : String) : Bool :=
  st.news_items.any (fun r => r.url == u)

/-- Step 4 (lines 144-172): for each incoming item, skip it when a row
with the same URL exists anywhere, else parse its date (substituting
`date.today()` when the result is `None`) and insert a row for the
security.  A `ValueError` escaping `parse_date_string` propagates.
Returns the store and `news_items_created`. -/
def merge_news_items (secId : Nat) (today : PyDate) :
    Store → List NewsItemIn → Nat → Except PyErr (Store × Nat)
  | st, [], k => .ok (st, k)
  | st, nd :: rest, k =>
      if url_exists st nd.url then merge_news_items secId today st rest k
      else
        match parse_date_string nd.date with
        | .error e => .error e
        | .ok pd =>
            merge_news_items secId today
              { st with
                news_items := st.news_items ++
                  [⟨st.next_id, secId, nd.headline, pd.getD today, nd.source,
                    nd.url, nd.favicon, nd.impact_level, nd.summary, st.clock⟩],
                next_id := st.next_id + 1,
                clock := st.clock + 1 }
              rest (k + 1)

/-- Step 5 (lines 186-197): `UpcomingEvent.objects.create(...)` for every
incoming event, unconditionally; the `date` string is stored verbatim. -/
def append_upcoming_events (secId : Nat) : Store → List UpcomingEventIn → Store
  | st, [] => st
  | st, ev :: rest =>
      append_upcoming_events secId
        { st with
          events := st.events ++
            [⟨st.next_id, secId, ev.event, ev.date, ev.category,
              ev.importance, st.clock⟩],
          next_id := st.next_id + 1,
          clock := st.clock + 1 }
        rest

/-! ## Retention trimming (news_data_transformer.py, lines 263-333) -/

/-- Insert into a list sorted by `key` ascending, after equal keys
(stable). -/
def insertByKey {α : Type} (key : α → Nat) (a : α) : List α → List α
  | [] => [a]
  | x :: xs => if key a < key x then a :: x :: xs else x :: insertByKey key a xs

/-- `order_by("created_at")`: stable insertion sort by the key. -/
def sortByKey {α : Type} (key : α → Nat) : List α → List α
  | [] => []
  | x :: xs => insertByKey key x (sortByKey key xs)

/-- `NewsDataTransformer.cleanup_excess_news_items` (lines 263-296), the
`try` body: count the security's rows; when `count > max_items`, collect
the ids of the `count - max_items` oldest rows (`order_by("created_at")`,
sliced) and delete the rows with those ids. -/
def cleanup_excess_news_items (st : Store) (secId : Nat) (max_items : Int) : Store :=
  let mine := st.news_items.filter (fun r => r.security_id == secId)
  if (mine.length : Int) > max_items then
    let excess := ((mine.length : Int) - max_items).toNat
    let oldest := ((sortByKey (fun r => r.created_at) mine).take excess).map (fun r => r.id)
    { st with news_items := st.news_items.filter (fun r => !(oldest.contains r.id)) }
  else st

/-- `NewsDataTransformer.cleanup_excess_upcoming_events` (lines 298-333),
the `try` body: same trimming for `UpcomingEvent`. -/
def cleanup_excess_upcoming_events (st : Store) (secId : Nat) (max_items : Int) : Store :=
  let mine := st.events.filter (fun r => r.security_id == secId)
  if (mine.length : Int) > max_items then
    let excess := ((mine.length : Int) - max_items).toNat
    let oldest := ((sortByKey (fun r => r.created_at) mine).take excess).map (fun r => r.id)
    { st with events := st.events.filter (fun r => !(oldest.contains r.id)) }
  else st

/-- The `try/except Exception: logger.error(...)` wrapper of
`cleanup_excess_news_items`: an error raised inside the step is caught
and logged, never re-raised, so the call continues with the store as it
was (faults are injected at step entry). -/
def cleanup_news_guarded (faults : List Step) (st : Store) (secId : Nat)
    (max_items : Int) : Store :=
  if faults.contains .newsTrim then st
  else cleanup_excess_news_items st secId max_items

/-- The `try/except Exception: logger.error(...)` wrapper of
`cleanup_excess_upcoming_events`: likewise swallowed. -/
def cleanup_events_guarded (faults : List Step) (st : Store) (secId : Nat)
    (max_items : Int) : Store :=
  if faults.contains .eventTrim then st
  else cleanup_excess_upcoming_events st secId max_items

/-! ## The orchestrated call (`save_analysis_to_db`, lines 74-215) -/

/-- The body of `save_analysis_to_db` in source order, with an injectable
fault at the entry of each step: sentiment get-or-create, summary
update-or-create, highlight replacement, news merge, news trim (unless
`skip_cleanup`), event append, event trim (unless `skip_cleanup`).
Returns the written store and the summary row id. -/
def save_analysis_body (faults : List Step) (today : PyDate) (st : Store)
    (sec : SecurityRow) (a : StructuredStockAnalysis)
    (max_news_items max_events : Option Int) (skip_cleanup : Bool) :
    Except PyErr (Store × Nat) :=
  if faults.contains .sentiment then .error (.injected .sentiment) else
  match sentiment_get_or_create st a.overall_sentiment with
  | .error e => .error e
  | .ok (st1, sentId, _) =>
    if faults.contains .summaryUpsert then .error (.injected .summaryUpsert) else
    match summary_update_or_create st1 sec.id a sentId with
    | .error e => .error e
    | .ok (st2, sumId, _) =>
      if faults.contains .highlightReplace then .error (.injected .highlightReplace) else
      let st3 := key_highlights_replace st2 sumId a.key_highlights
      if faults.contains .newsMerge then .error (.injected .newsMerge) else
      match merge_news_items sec.id today st3 a.recent_news 0 with
      | .error e => .error e
      | .ok (st4, _) =>
        let st5 :=
          if skip_cleanup then st4
          else cleanup_news_guarded faults st4 sec.id
            (effectiveMax max_news_items MAX_NEWS_ITEMS_PER_SECURITY)
        if faults.contains .eventAppend then .error (.injected .eventAppend) else
        let st6 := append_upcoming_events sec.id st5 a.upcoming_events
        let st7 :=
          if skip_cleanup then st6
          else cleanup_events_guarded faults st6 sec.id
            (effectiveMax max_events MAX_UPCOMING_EVENTS_PER_SECURITY)
        .ok (st7, sumId)

/-- `save_analysis_to_db` as observed by its caller: the body runs under
`@transaction.atomic` and its `except Exception: ...; raise` re-raises,
so on success the written store is committed and on any error the
transaction rolls back and the caller still sees the pre-call store. -/
def run_ingestion (faults : List Step) (today : PyDate) (st : Store)
    (sec : SecurityRow) (a : StructuredStockAnalysis)
    (max_news_items max_events : Option Int) (skip_cleanup : Bool) :
    Store × Except PyErr Nat :=
  match save_analysis_body faults today st sec a max_news_items max_events skip_cleanup with
  | .ok (st', sumId) => (st', .ok sumId)
  | .error e => (st, .error e)

/-! ## Validation and the per-entity driver step -/

/-- Python truthiness test `not getattr(analysis, field, "").strip()`. -/
def strippedEmpty (s : String) : Bool := (pyStrip s.data).isEmpty

/-- `StockAnalysisService.validate_analysis` (ai_agents/services.py,
lines 184-257).  The source is a chain of early `return False` checks;
it is embedded as the conjunction of those checks in source order:
required text fields non-blank, sentiment present, sentiment in
{Bullish, Bearish, Neutral}, every news impact level in
{High, Medium, Low}, every event category and importance in their
declared sets. -/
def validate_analysis (a : StructuredStockAnalysis) : Bool :=
  !(strippedEmpty a.summary) &&
  !(strippedEmpty a.executive_summary) &&
  !(strippedEmpty a.positive_catalysts) &&
  !(strippedEmpty a.risk_factors) &&
  !(strippedEmpty a.disclaimer) &&
  !(a.overall_sentiment.sentiment == "") &&
  ["Bullish", "Bearish", "Neutral"].contains a.overall_sentiment.sentiment &&
  a.recent_news.all (fun n => ["High", "Medium", "Low"].contains n.impact_level) &&
  a.upcoming_events.all (fun e =>
    ["Earnings", "Corporate_Actions", "Regulatory", "Strategic",
     "Industry", "Economic"].contains e.category &&
    ["High", "Medium", "Low"].contains e.importance)

/-- One security's processing step of the `update_news_summaries`
management command (lines 139-175): validate the analysis; when invalid,
count the security as failed and persist nothing; otherwise run the
transactional save (the surrounding per-security `try/except` turns a
propagated exception into a failure as well).  Returns the observable
store and a success flag. -/
def process_security (faults : List Step) (today : PyDate) (st : Store)
    (sec : SecurityRow) (a : StructuredStockAnalysis)
    (max_news_items max_events : Option Int) (skip_cleanup : Bool) :
    Store × Bool :=
  if !(validate_analysis a) then (st, false)
  else
    match run_ingestion faults today st sec a max_news_items max_events skip_cleanup with
    | (st', .ok _) => (st', true)
    | (st', .error _) => (st', false)

/-! ## Symbol lookup (`get_security_by_symbol`, lines 243-261) -/

/-- Python `str.upper()` (ASCII). -/
def pyUpper (s : String) : String := ⟨s.data.map Char.toUpper⟩

/-- `Security.objects.get(symbol=..., is_active=True)`: raises
`DoesNotExist` on no match and `MultipleObjectsReturned` on several. -/
def security_objects_get (st : Store) (symbolU : String) :
    Except PyErr SecurityRow :=
  match st.securities.filter (fun r => r.symbol == symbolU && r.is_active) with
  | [] => .error .doesNotExist
  | [r] => .ok r
  | _ :: _ :: _ => .error .multipleObjectsReturned

/-- `NewsDataTransformer.get_security_by_symbol`: upper-cases the input,
queries, and catches `DoesNotExist` and every other exception, returning
`None`. -/
def get_security_by_symbol (st : Store) (symbol : String) : Option SecurityRow :=
  match security_objects_get st (pyUpper symbol) with
  | .ok r => some r
  | .error _ => none

/-! ## Store invariants (established by the schema and the pipeline) -/

/-- No two `OverallSentiment` rows share the `(sentiment, rationale)`
pair (what `get_or_create` keyed on that pair maintains). -/
def SentimentPairsUnique (st : Store) : Prop :=
  st.sentiments.Pairwise
    (fun r q => ¬(r.sentiment = q.sentiment ∧ r.rationale = q.rationale))

/-- At most one `SecurityNewsSummary` row per security (the
`OneToOneField`). -/
def SummariesOneToOne (st : Store) : Prop :=
  st.summaries.Pairwise (fun r q => r.security_id ≠ q.security_id)

/-- Well-formedness of the `NewsItem` table: insertion-ordered
`created_at`, distinct primary keys, a unique URL per row, and counters
ahead of every stored row. -/
def NewsInv (st : Store) : Prop :=
  st.news_items.Pairwise (fun r q => r.created_at < q.created_at) ∧
  (st.news_items.map (fun r => r.id)).Nodup ∧
  (st.news_items.map (fun r => r.url)).Nodup ∧
  (∀ r ∈ st.news_items, r.id < st.next_id ∧ r.created_at < st.clock)

/-- `NewsItem.objects.filter(security=security)`. -/
def newsFor (st : Store) (secId : Nat) : List NewsRow :=
  st.news_items.filter (fun r => r.security_id == secId)

/-- `UpcomingEvent.objects.filter(security=security)`. -/
def eventsFor (st : Store) (secId : Nat) : List EventRow :=
  st.events.filter (fun r => r.security_id == secId)

/-- The summary rows of one security. -/
def summariesFor (st : Store) (secId : Nat) : List SummaryRow :=
  st.summaries.filter (fun r => r.security_id == secId)

/-- The observable content of a summary's highlight list: the
`(text, order)` pairs of its `KeyHighlight` rows. -/
def hlContent (st : Store) (sumId : Nat) : List (String × Nat) :=
  (st.highlights.filter (fun h => h.summary_id == sumId)).map
    (fun h => (h.highlight, h.order))

/-- Did the embedded `parse_date_string` return without raising? -/
def parseOk (x : Except PyErr (Option PyDate)) : Bool :=
  match x with
  | .ok _ => true
  | .error _ => false

/-- Every date string in the batch parses without raising (the normal
situation; dates like `"2024-13-01"` violate it). -/
def datesOk (l : List NewsItemIn) : Prop :=
  l.all (fun nd => parseOk (parse_date_string nd.date)) = true

/-- The scalar summary fields written by the upsert. -/
def summaryContent (a : StructuredStockAnalysis) (r : SummaryRow) : Prop :=
  r.executive_summary = a.executive_summary ∧ r.summary = a.summary ∧
  r.positive_catalysts = a.positive_catalysts ∧
  r.risk_factors = a.risk_factors ∧ r.key_metrics = a.key_metrics ∧
  r.disclaimer = a.disclaimer

/-! ## Concrete fixtures used by witnesses and counterexamples -/

/-- An active tracked security. -/
def secAAPL : SecurityRow := ⟨0, "AAPL", true⟩

/-- An inactive security (delisted but still stored). -/
def secMSFT : SecurityRow := ⟨1, "MSFT", false⟩

/-- A store holding just the two securities. -/
def baseStore : Store := ⟨[secAAPL, secMSFT], [], [], [], [], [], 2, 0⟩

/-- The processing date of the demo run. -/
def demoToday : PyDate := ⟨2024, 3, 1⟩

/-- A well-formed analysis result (two highlights, one news item, one
event with a fuzzy date). -/
def demoAnalysis : StructuredStockAnalysis :=
  { summary := "Quick overview."
    key_highlights := ["h1", "h2"]
    overall_sentiment := ⟨"Bullish", "strong earnings", some "High"⟩
    executive_summary := "Executive summary."
    recent_news := [⟨"Apple beats", "2024-01-15", "Reuters", "https://x/u1", "", "High", "sum"⟩]
    key_metrics := [("pe", "29")]
    positive_catalysts := "Catalysts."
    risk_factors := "Risks."
    upcoming_events := [⟨"Earnings call", "Q1 2025", "Earnings", "High"⟩]
    disclaimer := "Not advice." }

/-- The analysis of `C5`'s failing input: a fresh URL whose date string
is well-formatted but not a valid calendar date. -/
def badDateAnalysis : StructuredStockAnalysis :=
  { demoAnalysis with
    recent_news := [⟨"Odd date", "2024-13-01", "Reuters", "https://x/u-bad", "", "Low", "sum"⟩] }

/-- An analysis carrying an invalid sentiment enum value. -/
def invalidEnumAnalysis : StructuredStockAnalysis :=
  { demoAnalysis with overall_sentiment := ⟨"Sideways", "drifting", none⟩ }

/-- A news row fixture builder (distinct ids, URLs and creation times). -/
def mkNews (i : Nat) (u : String) (t : Nat) : NewsRow :=
  ⟨i, 0, "h", ⟨2024, 1, 1⟩, "src", u, "", "Low", "s", t⟩

/-- An event row fixture builder. -/
def mkEvent (i : Nat) (t : Nat) : EventRow :=
  ⟨i, 0, "ev", "Q1 2025", "Earnings", "Low", t⟩

/-- Store with three news rows and three event rows for security 0
(insertion-ordered), used to exercise retention trimming. -/
def trimStore : Store :=
  ⟨[secAAPL], [], [], [],
   [mkNews 10 "https://x/a" 0, mkNews 11 "https://x/b" 1, mkNews 12 "https://x/c" 2],
   [mkEvent 13 3, mkEvent 14 4, mkEvent 15 5], 16, 6⟩

/-- Store with a single news row, used by the `C4` counterexample. -/
def oneNewsStore : Store :=
  ⟨[secAAPL], [], [], [], [mkNews 10 "https://x/a" 0], [], 11, 1⟩

/-- A sentiment row matching `demoAnalysis`, with a different stored
confidence, for the registry witness. -/
def demoSentimentRow : SentimentRow := ⟨7, "Bullish", "strong earnings", some "Low"⟩

/-- Store already holding `demoSentimentRow`. -/
def sentimentStore : Store := ⟨[secAAPL], [demoSentimentRow], [], [], [], [], 8, 0⟩

/-- Two incoming news items sharing one URL (within a single call). -/
def dupUrlBatch : List NewsItemIn :=
  [⟨"n1", "2024-01-15", "s", "https://x/dup", "", "Low", "a"⟩,
   ⟨"n2", "01/16/2024", "s", "https://x/dup", "", "Low", "b"⟩]

/-- The store produced by merging `dupUrlBatch` into `baseStore`. -/
def dupMergedStore : Store :=
  match merge_news_items 0 demoToday baseStore dupUrlBatch 0 with
  | .ok (st, _) => st
  | .error _ => baseStore

/-- First demo ingestion of `demoAnalysis` into `baseStore`. -/
def demoRun1 : Store × Except PyErr Nat :=
  run_ingestion [] demoToday baseStore secAAPL demoAnalysis none none false

/-- Second, identical demo ingestion on top of the first. -/
def demoRun2 : Store × Except PyErr Nat :=
  run_ingestion [] demoToday demoRun1.1 secAAPL demoAnalysis none none false

/-! ## Sanity checks of the date embedding -/

example : parse_date_string "2024-01-15" = .ok (some ⟨2024, 1, 15⟩) := rfl
example : parse_date_string "01/15/2024" = .ok (some ⟨2024, 1, 15⟩) := rfl
example : parse_date_string " January 15, 2024 " = .ok (some ⟨2024, 1, 15⟩) := rfl
example : parse_date_string "Jan 5, 2024" = .ok (some ⟨2024, 1, 5⟩) := rfl
example : parse_date_string "2024-01-15 07:30:05" = .ok (some ⟨2024, 1, 15⟩) := rfl
example : parse_date_string "Q1 2025" = .ok none := rfl
example : parse_date_string "Late February 2025" = .ok none := rfl
example : parse_date_string "" = .ok none := rfl
example : parse_date_string "2024-02-30" = .error .valueError := rfl

/-! ## C8 — DateNormalizer totality -/

/-- C8. Claim: "For every input string, the date normalizer either
returns a resolved calendar date or the explicit no-match signal; no
exception ever escapes the component, including for unparseable, fuzzy,
or malformed date strings."  This is refuted by the code: for the
well-formatted but invalid date `"2024-13-01"` every `strptime` format
fails (caught), and `django.utils.dateparse.parse_date` then raises
`ValueError` outside any `try/except`, escaping `parse_date_string` —
contradicting its own docstring ("date object or None if parsing
fails"). -/
theorem C8_parse_date_string_raises :
    parse_date_string "2024-13-01" = .error .valueError := rfl

/-! ## C5 — news merge skip/insert with date fallback -/

/-- C5. Claim: every incoming item is either skipped (URL already
stored) or inserted with its date parsed or defaulted to today.  Refuted
at the failing input `badDateAnalysis`: its URL is fresh, so the claim
requires an inserted row carrying today's date, but the date string
`"2024-13-01"` makes the embedded `parse_date_string` raise, the
exception propagates out of the merge loop, and the whole ingestion call
rolls back with a `ValueError` — nothing is inserted.  (The code
contradicts its own comment "Use today if date parsing fails".) -/
theorem C5_bad_date_aborts_instead_of_today :
    run_ingestion [] demoToday baseStore secAAPL badDateAnalysis none none false
      = (baseStore, .error .valueError) := rfl

/-! ## C10 — symbol lookup -/

/-- C10. "The entity lookup by symbol normalizes its input to upper case
before matching — so lookups differing only in letter case return the
same entity — and returns not-found both when no entity has the symbol
and when the matching entity is inactive; it never raises to the caller"
(every exception of the underlying `get` is caught and turned into
`None`). -/
theorem C10_get_security_by_symbol (st : Store) (x y sym : String)
    (hxy : pyUpper x = pyUpper y) :
    get_security_by_symbol st x = get_security_by_symbol st y ∧
    ((∀ r ∈ st.securities, r.symbol ≠ pyUpper sym) →
      get_security_by_symbol st sym = none) ∧
    ((∀ r ∈ st.securities, r.symbol = pyUpper sym → r.is_active = false) →
      get_security_by_symbol st sym = none) ∧
    (∀ e, security_objects_get st (pyUpper sym) = .error e →
      get_security_by_symbol st sym = none) := by
  refine ⟨?_, ?_, ?_, ?_⟩
  · unfold get_security_by_symbol
    rw [hxy]
  · intro h
    have hf : st.securities.filter
        (fun r => r.symbol == pyUpper sym && r.is_active) = [] := by
      rw [List.filter_eq_nil_iff]
      intro r hr
      simp [h r hr]
    unfold get_security_by_symbol security_objects_get
    rw [hf]
  · intro h
    have hf : st.securities.filter
        (fun r => r.symbol == pyUpper sym && r.is_active) = [] := by
      rw [List.filter_eq_nil_iff]
      intro r hr
      by_cases hs : r.symbol = pyUpper sym
      · simp [hs, h r hr hs]
      · simp [hs]
    unfold get_security_by_symbol security_objects_get
    rw [hf]
  · intro e he
    unfold get_security_by_symbol
    rw [he]

/-- Witness for C10 at a concrete store: `"aapl"` and `"AaPl"` resolve
identically, an unknown symbol and an inactive security give `None`, and
a raising `get` is caught. -/
theorem C10_witness :
    get_security_by_symbol baseStore "aapl" = get_security_by_symbol baseStore "AaPl" ∧
    ((∀ r ∈ baseStore.securities, r.symbol ≠ pyUpper "goog") →
      get_security_by_symbol baseStore "goog" = none) ∧
    ((∀ r ∈ baseStore.securities, r.symbol = pyUpper "goog" → r.is_active = false) →
      get_security_by_symbol baseStore "goog" = none) ∧
    (∀ e, security_objects_get baseStore (pyUpper "goog") = .error e →
      get_security_by_symbol baseStore "goog" = none) :=
  C10_get_security_by_symbol baseStore "aapl" "AaPl" "goog" (by decide)

/-! ## C6 — URL uniqueness enforcement -/

/-- `url_exists` is exactly membership of the URL column. -/
theorem url_exists_iff {st : Store} {u : String} :
    url_exists st u = true ↔ u ∈ st.news_items.map (fun r => r.url) := by
  simp only [url_exists, List.any_eq_true, List.mem_map, beq_iff_eq]

/-- C6 counterexample: the claim asserts that URL uniqueness "is
enforced as a constraint at the storage layer (not merely by an
application-level existence check)", but `securities/models.py` declares
`NewsItem.url` as a plain `URLField` with no `unique=True` (while e.g.
`Security.symbol` does carry one), so the storage layer enforces no such
constraint and an insert never sees a uniqueness conflict to tolerate. -/
theorem C6_counterexample :
    (declared_unique_fields.find?
        (fun f => f.model == "NewsItem" && f.field == "url")).map ModelField.unique
      = some false ∧
    (declared_unique_fields.find?
        (fun f => f.model == "Security" && f.field == "symbol")).map ModelField.unique
      = some true := by decide

/-- C6 amended: URL uniqueness is maintained only by the application
level `filter(url=...).exists()` check run before each insert; because
that check re-runs per item and sees the call's earlier inserts, even an
incoming list containing duplicate URLs leaves the store free of
duplicate URLs. -/
theorem C6_amended_no_duplicate_urls (secId : Nat) (today : PyDate)
    (l : List NewsItemIn) (st st' : Store) (k k' : Nat)
    (hu : (st.news_items.map (fun r => r.url)).Nodup)
    (h : merge_news_items secId today st l k = .ok (st', k')) :
    (st'.news_items.map (fun r => r.url)).Nodup := by
  induction l generalizing st k with
  | nil =>
      have hst : st = st' := by
        have h2 := h
        simp only [merge_news_items, Except.ok.injEq, Prod.mk.injEq] at h2
        exact h2.1
      rw [← hst]
      exact hu
  | cons nd rest ih =>
      simp only [merge_news_items] at h
      by_cases hx : url_exists st nd.url = true
      · rw [if_pos hx] at h
        exact ih st k hu h
      · rw [if_neg hx] at h
        rcases hp : parse_date_string nd.date with e | pd
        · rw [hp] at h
          cases h
        · rw [hp] at h
          refine ih _ (k + 1) ?_ h
          rw [List.map_append, List.nodup_append]
          refine ⟨hu, by simp, ?_⟩
          intro u hmem hsing
          simp only [List.map_cons, List.map_nil, List.mem_singleton] at hsing
          subst hsing
          exact hx (url_exists_iff.mpr hmem)

/-- Witness for C6 on a concrete duplicate-URL batch: the store's URL
column is duplicate-free before and after the merge. -/
theorem C6_amended_witness :
    (dupMergedStore.news_items.map (fun r => r.url)).Nodup :=
  C6_amended_no_duplicate_urls 0 demoToday dupUrlBatch baseStore dupMergedStore 0 1
    (by decide) rfl

/-! ## C9 — invalid enum values rejected before persistence -/

/-- A passing validation pins every enum field into its declared set
(contrapositive workhorse for C9). -/
theorem validate_analysis_enums (a : StructuredStockAnalysis)
    (h : validate_analysis a = true) :
    ["Bullish", "Bearish", "Neutral"].contains a.overall_sentiment.sentiment = true ∧
    (∀ n ∈ a.recent_news, ["High", "Medium", "Low"].contains n.impact_level = true) ∧
    (∀ e ∈ a.upcoming_events,
      ["Earnings", "Corporate_Actions", "Regulatory", "Strategic",
       "Industry", "Economic"].contains e.category = true ∧
      ["High", "Medium", "Low"].contains e.importance = true) := by
  simp only [validate_analysis, Bool.and_eq_true, List.all_eq_true] at h
  obtain ⟨⟨⟨⟨⟨⟨⟨⟨-, -⟩, -⟩, -⟩, -⟩, -⟩, hs⟩, hn⟩, he⟩ := h
  exact ⟨hs, hn, he⟩

/-- C9. "An invalid enum value in the incoming analysis data (for
example a sentiment classification outside {Bullish, Bearish, Neutral},
or an impact level, event category, or importance outside its declared
set) is rejected by validation before any persistence and makes that
entity's ingestion call fail; it is never silently coerced or stored":
the driver runs `validate_analysis` before `save_analysis_to_db`, and a
failing validation counts the security as failed with the store
untouched. -/
theorem C9_invalid_enum_rejected (faults : List Step) (today : PyDate)
    (st : Store) (sec : SecurityRow) (a : StructuredStockAnalysis)
    (mn me : Option Int) (skip : Bool)
    (h : ["Bullish", "Bearish", "Neutral"].contains a.overall_sentiment.sentiment = false ∨
         (∃ n ∈ a.recent_news, ["High", "Medium", "Low"].contains n.impact_level = false) ∨
         (∃ e ∈ a.upcoming_events,
           ["Earnings", "Corporate_Actions", "Regulatory", "Strategic",
            "Industry", "Economic"].contains e.category = false) ∨
         (∃ e ∈ a.upcoming_events,
           ["High", "Medium", "Low"].contains e.importance = false)) :
    validate_analysis a = false ∧
    process_security faults today st sec a mn me skip = (st, false) := by
  have hv : validate_analysis a = false := by
    rcases Bool.eq_false_or_eq_true (validate_analysis a) with hv | hv
    case inr => exact hv
    case inl =>
      exfalso
      obtain ⟨hs, hn, he⟩ := validate_analysis_enums a hv
      rcases h with h | ⟨n, hmem, h⟩ | ⟨e, hmem, h⟩ | ⟨e, hmem, h⟩
      · rw [hs] at h; cases h
      · rw [hn n hmem] at h; cases h
      · rw [(he e hmem).1] at h; cases h
      · rw [(he e hmem).2] at h; cases h
  refine ⟨hv, ?_⟩
  unfold process_security
  rw [hv]
  rfl

/-- Witness for C9: the concrete sentiment value `"Sideways"` is
rejected and nothing is written. -/
theorem C9_witness :
    (["Bullish", "Bearish", "Neutral"].contains
        invalidEnumAnalysis.overall_sentiment.sentiment = false ∨
     (∃ n ∈ invalidEnumAnalysis.recent_news,
        ["High", "Medium", "Low"].contains n.impact_level = false) ∨
     (∃ e ∈ invalidEnumAnalysis.upcoming_events,
        ["Earnings", "Corporate_Actions", "Regulatory", "Strategic",
         "Industry", "Economic"].contains e.category = false) ∨
     (∃ e ∈ invalidEnumAnalysis.upcoming_events,
        ["High", "Medium", "Low"].contains e.importance = false)) ∧
    (validate_analysis invalidEnumAnalysis = false ∧
     process_security [] demoToday baseStore secAAPL invalidEnumAnalysis
        none none false = (baseStore, false)) :=
  ⟨Or.inl (by decide),
   C9_invalid_enum_rejected [] demoToday baseStore secAAPL invalidEnumAnalysis
     none none false (Or.inl (by decide))⟩

/-! ## C1 and C3 counterexamples, C4 counterexample -/

/-- C1 counterexample.  The claim requires that re-ingesting the same
analysis result leaves "news and event row counts unchanged"; events
however have no dedup key (`UpcomingEvent.objects.create` runs
unconditionally), so the second identical ingestion of `demoAnalysis`
(one upcoming event, caps at their defaults) succeeds and raises the
entity's event row count from 1 to 2. -/
theorem C1_counterexample :
    demoRun1.2 = .ok 3 ∧ demoRun2.2 = .ok 3 ∧
    (eventsFor demoRun1.1 secAAPL.id).length = 1 ∧
    (eventsFor demoRun2.1 secAAPL.id).length = 2 :=
  ⟨rfl, rfl, by decide, by decide⟩

/-- C3 counterexample.  The claim requires every step's error — naming
retention trimming explicitly — to abort the orchestrated call and
propagate; but `cleanup_excess_news_items` wraps its body in
`try/except Exception: logger.error(...)` without re-raising, so with an
error injected inside the news-trim step the call still returns
successfully and its writes commit (the store differs from the
pre-call store). -/
theorem C3_counterexample :
    (run_ingestion [Step.newsTrim] demoToday baseStore secAAPL demoAnalysis
        none none false).2 = .ok 3 ∧
    (run_ingestion [Step.newsTrim] demoToday baseStore secAAPL demoAnalysis
        none none false).1 ≠ baseStore :=
  ⟨rfl, by decide⟩

/-- C4 counterexample.  The claim quantifies over every cap `c` and
asserts that whenever `n > c` exactly `n − c` oldest rows are deleted;
at `c = -1` with one stored row the code deletes that single row (2 are
impossible), so the deleted count is `1`, not `n − c = 2`. -/
theorem C4_counterexample :
    ((newsFor oneNewsStore secAAPL.id).length : Int) -
        ((newsFor (cleanup_excess_news_items oneNewsStore secAAPL.id (-1))
            secAAPL.id).length : Int) = 1 ∧
    ¬(((newsFor oneNewsStore secAAPL.id).length : Int) -
        ((newsFor (cleanup_excess_news_items oneNewsStore secAAPL.id (-1))
            secAAPL.id).length : Int)
      = ((newsFor oneNewsStore secAAPL.id).length : Int) - (-1)) := by decide

/-! ## C7 — sentiment registry -/

/-- Under the pair-uniqueness invariant the `get` part of
`get_or_create` sees zero or one matching row. -/
theorem sentiment_filter_cases (st : Store) (sa : SentimentAnalysisIn)
    (h : SentimentPairsUnique st) :
    ((st.sentiments.filter
        (fun r => r.sentiment == sa.sentiment && r.rationale == sa.rationale)) = [] ∧
      ∀ r ∈ st.sentiments, ¬(r.sentiment = sa.sentiment ∧ r.rationale = sa.rationale)) ∨
    (∃ r, (st.sentiments.filter
        (fun r => r.sentiment == sa.sentiment && r.rationale == sa.rationale)) = [r] ∧
      r ∈ st.sentiments ∧ r.sentiment = sa.sentiment ∧ r.rationale = sa.rationale) := by
  unfold SentimentPairsUnique at h
  cases hf : st.sentiments.filter
      (fun r => r.sentiment == sa.sentiment && r.rationale == sa.rationale) with
  | nil =>
      left
      refine ⟨rfl, fun r hr hcontra => ?_⟩
      have hpr : (fun r : SentimentRow =>
          r.sentiment == sa.sentiment && r.rationale == sa.rationale) r = true := by
        simp [hcontra.1, hcontra.2]
      have hmem : r ∈ st.sentiments.filter
          (fun r => r.sentiment == sa.sentiment && r.rationale == sa.rationale) :=
        List.mem_filter.mpr ⟨hr, hpr⟩
      rw [hf] at hmem
      cases hmem
  | cons r rest =>
      cases rest with
      | nil =>
          right
          have hmem : r ∈ st.sentiments.filter
              (fun r => r.sentiment == sa.sentiment && r.rationale == sa.rationale) := by
            rw [hf]; exact List.mem_cons_self r []
          have hpr := List.of_mem_filter hmem
          simp only [Bool.and_eq_true, beq_iff_eq] at hpr
          exact ⟨r, rfl, (List.mem_filter.mp hmem).1, hpr.1, hpr.2⟩
      | cons r2 rest2 =>
          exfalso
          have hsub : (r :: r2 :: rest2).Sublist st.sentiments := by
            rw [← hf]; exact List.filter_sublist _
          have hpw := List.Pairwise.sublist hsub h
          have hrel := (List.pairwise_cons.mp hpw).1 r2 (List.mem_cons_self r2 rest2)
          have hmr : r ∈ st.sentiments.filter
              (fun r => r.sentiment == sa.sentiment && r.rationale == sa.rationale) := by
            rw [hf]; simp
          have hmr2 : r2 ∈ st.sentiments.filter
              (fun r => r.sentiment == sa.sentiment && r.rationale == sa.rationale) := by
            rw [hf]; simp
          have h1 := List.of_mem_filter hmr
          have h2 := List.of_mem_filter hmr2
          simp only [Bool.and_eq_true, beq_iff_eq] at h1 h2
          exact hrel ⟨h1.1.trans h2.1.symm, h1.2.trans h2.2.symm⟩

/-- The store produced when the registry creates a fresh sentiment row. -/
def sentimentCreated (st : Store) (sa : SentimentAnalysisIn) : Store :=
  { st with
    sentiments := st.sentiments ++
      [⟨st.next_id, sa.sentiment, sa.rationale, sa.confidence_level⟩],
    next_id := st.next_id + 1 }

/-- Full specification of `OverallSentiment.objects.get_or_create` under
the pair-uniqueness invariant: reuse for any stored matching row
(whatever its confidence), creation carrying the given confidence,
stability of the resolved id under re-resolution, and preservation of
the no-duplicates invariant. -/
theorem goc_spec (st : Store) (sa : SentimentAnalysisIn)
    (h : SentimentPairsUnique st) :
    (∀ r ∈ st.sentiments, r.sentiment = sa.sentiment → r.rationale = sa.rationale →
        sentiment_get_or_create st sa = .ok (st, r.id, false)) ∧
    ((∀ r ∈ st.sentiments, ¬(r.sentiment = sa.sentiment ∧ r.rationale = sa.rationale)) →
        sentiment_get_or_create st sa = .ok (sentimentCreated st sa, st.next_id, true)) ∧
    (∀ st' i c, sentiment_get_or_create st sa = .ok (st', i, c) →
        sentiment_get_or_create st' sa = .ok (st', i, false) ∧
        SentimentPairsUnique st') := by
  rcases sentiment_filter_cases st sa h with ⟨hf, hnone⟩ | ⟨r0, hf, hmem, hs, hr⟩
  · have hgoc : sentiment_get_or_create st sa
        = .ok (sentimentCreated st sa, st.next_id, true) := by
      unfold sentiment_get_or_create
      rw [hf]
      rfl
    refine ⟨?_, ?_, ?_⟩
    · intro r hr hs hrat
      exact absurd (And.intro hs hrat) (hnone r hr)
    · intro _
      exact hgoc
    · intro st' i c hok
      rw [hgoc] at hok
      cases hok
      constructor
      · unfold sentiment_get_or_create
        have hsplit : (sentimentCreated st sa).sentiments.filter
            (fun r => r.sentiment == sa.sentiment && r.rationale == sa.rationale)
            = [⟨st.next_id, sa.sentiment, sa.rationale, sa.confidence_level⟩] := by
          simp only [sentimentCreated]
          rw [List.filter_append, hf]
          simp
        rw [hsplit]
      · unfold SentimentPairsUnique sentimentCreated
        unfold SentimentPairsUnique at h
        rw [List.pairwise_append]
        refine ⟨h, List.pairwise_singleton _ _, ?_⟩
        intro a ha b hb
        simp only [List.mem_singleton] at hb
        subst hb
        intro hcon
        exact hnone a ha ⟨hcon.1, hcon.2⟩
  · have hgoc : sentiment_get_or_create st sa = .ok (st, r0.id, false) := by
      unfold sentiment_get_or_create
      rw [hf]
    refine ⟨?_, ?_, ?_⟩
    · intro r hrmem hrs hrrat
      have hreq : r = r0 := by
        by_contra hne
        have hsymm : Symmetric (fun r q : SentimentRow =>
            ¬(r.sentiment = q.sentiment ∧ r.rationale = q.rationale)) := by
          intro a b hab hcon
          exact hab ⟨hcon.1.symm, hcon.2.symm⟩
        unfold SentimentPairsUnique at h
        exact (List.Pairwise.forall hsymm h hrmem hmem hne)
          ⟨hrs.trans hs.symm, hrrat.trans hr.symm⟩
      rw [hreq]
      exact hgoc
    · intro hnone
      exact absurd ⟨hs, hr⟩ (hnone r0 hmem)
    · intro st' i c hok
      rw [hgoc] at hok
      cases hok
      exact ⟨hgoc, h⟩

/-- C7. "The sentiment registry, given (classification, rationale,
confidence), returns the existing SentimentRecord whenever one exists
with matching classification and rationale — confidence is ignored for
matching but set on creation — and creates a new record otherwise; in
particular, ingestions for two different entities carrying identical
(classification, rationale) resolve to the same SentimentRecord
identity, and no duplicate record for a given pair is ever created":
conjunct one is reuse (for any stored matching row, whatever its
confidence), conjunct two is creation carrying `sa.confidence_level`,
conjunct three re-resolves the same pair on the resulting store to the
same row id without creating anything, and keeps the no-duplicates
invariant. -/
theorem C7_sentiment_registry (st : Store) (sa : SentimentAnalysisIn)
    (h : SentimentPairsUnique st) :
    (∀ r ∈ st.sentiments, r.sentiment = sa.sentiment → r.rationale = sa.rationale →
        sentiment_get_or_create st sa = .ok (st, r.id, false)) ∧
    ((∀ r ∈ st.sentiments, ¬(r.sentiment = sa.sentiment ∧ r.rationale = sa.rationale)) →
        sentiment_get_or_create st sa = .ok (sentimentCreated st sa, st.next_id, true)) ∧
    (∀ st' i c, sentiment_get_or_create st sa = .ok (st', i, c) →
        sentiment_get_or_create st' sa = .ok (st', i, false) ∧
        SentimentPairsUnique st') :=
  goc_spec st sa h

/-- Witness for C7 on `sentimentStore`: `demoAnalysis`'s sentiment pair
already exists (with a different stored confidence) and is reused; the
invariant hypothesis is discharged by computation. -/
theorem C7_witness :
    (∀ r ∈ sentimentStore.sentiments,
        r.sentiment = demoAnalysis.overall_sentiment.sentiment →
        r.rationale = demoAnalysis.overall_sentiment.rationale →
        sentiment_get_or_create sentimentStore demoAnalysis.overall_sentiment
          = .ok (sentimentStore, r.id, false)) ∧
    ((∀ r ∈ sentimentStore.sentiments,
        ¬(r.sentiment = demoAnalysis.overall_sentiment.sentiment ∧
          r.rationale = demoAnalysis.overall_sentiment.rationale)) →
        sentiment_get_or_create sentimentStore demoAnalysis.overall_sentiment
          = .ok (sentimentCreated sentimentStore demoAnalysis.overall_sentiment,
                 sentimentStore.next_id, true)) ∧
    (∀ st' i c,
        sentiment_get_or_create sentimentStore demoAnalysis.overall_sentiment
          = .ok (st', i, c) →
        sentiment_get_or_create st' demoAnalysis.overall_sentiment
          = .ok (st', i, false) ∧ SentimentPairsUnique st') :=
  C7_sentiment_registry sentimentStore demoAnalysis.overall_sentiment
    (by unfold SentimentPairsUnique; decide)

/-! ## C4 — retention trimming -/

/-- Inserting below the head of a sorted list is the identity cons. -/
theorem insertByKey_of_lt {α : Type} (key : α → Nat) (a : α) (l : List α)
    (h : ∀ b ∈ l, key a < key b) : insertByKey key a l = a :: l := by
  cases l with
  | nil => rfl
  | cons x xs =>
      unfold insertByKey
      rw [if_pos (h x (List.mem_cons_self x xs))]

/-- `order_by("created_at")` is the identity on a table whose rows are
already in strictly increasing creation order. -/
theorem sortByKey_of_sorted {α : Type} (key : α → Nat) (l : List α)
    (h : l.Pairwise (fun x y => key x < key y)) : sortByKey key l = l := by
  induction l with
  | nil => rfl
  | cons x xs ih =>
      rw [List.pairwise_cons] at h
      unfold sortByKey
      rw [ih h.2]
      exact insertByKey_of_lt key x xs h.1

/-- Core of the trimming delete: removing, from a table with distinct
keys, the rows whose key occurs among the first `e` rows of a filtered
view, leaves exactly the filtered view with its first `e` rows dropped. -/
theorem trim_core {α : Type} (key : α → Nat) (p : α → Bool) (l : List α) (e : Nat)
    (hid : (l.map key).Nodup) :
    (l.filter (fun r => !((((l.filter p).take e).map key).contains (key r)))).filter p
      = (l.filter p).drop e := by
  have hKsubl : ((l.filter p).take e).Sublist l :=
    (List.take_sublist _ _).trans (List.filter_sublist _)
  have hmineNodup : ((l.filter p).map key).Nodup :=
    List.Nodup.sublist (List.Sublist.map key (List.filter_sublist _)) hid
  have hchar : ∀ r ∈ l,
      ((((l.filter p).take e).map key).contains (key r) = true ↔
        r ∈ (l.filter p).take e) := by
    intro r hr
    constructor
    · intro hc
      rw [List.contains_eq_any_beq, List.any_eq_true] at hc
      obtain ⟨x, hx, hbeq⟩ := hc
      rw [List.mem_map] at hx
      obtain ⟨q, hqK, hqkey⟩ := hx
      have hql : q ∈ l := hKsubl.subset hqK
      have hqr : q = r :=
        List.inj_on_of_nodup_map hid hql hr
          (by rw [hqkey]; exact (beq_iff_eq.mp hbeq).symm)
      exact hqr ▸ hqK
    · intro hrK
      rw [List.contains_eq_any_beq, List.any_eq_true]
      exact ⟨key r, List.mem_map_of_mem key hrK, by simp⟩
  have hcomm : (l.filter
        (fun r => !((((l.filter p).take e).map key).contains (key r)))).filter p
      = (l.filter p).filter
          (fun r => !((((l.filter p).take e).map key).contains (key r))) := by
    rw [List.filter_filter, List.filter_filter]
    exact List.filter_congr (fun a _ => Bool.and_comm _ _)
  rw [hcomm]
  have hfK : ((l.filter p).take e).filter
      (fun r => !((((l.filter p).take e).map key).contains (key r))) = [] := by
    rw [List.filter_eq_nil_iff]
    intro r hrK hcon
    have hrl : r ∈ l := hKsubl.subset hrK
    rw [Bool.not_eq_true'] at hcon
    exact (Bool.eq_false_iff.mp hcon) ((hchar r hrl).mpr hrK)
  have hfD : ((l.filter p).drop e).filter
      (fun r => !((((l.filter p).take e).map key).contains (key r)))
      = (l.filter p).drop e := by
    rw [List.filter_eq_self]
    intro r hrD
    have hrl : r ∈ l :=
      ((List.drop_sublist _ _).trans (List.filter_sublist _)).subset hrD
    rw [Bool.not_eq_true']
    rcases Bool.eq_false_or_eq_true
        ((((l.filter p).take e).map key).contains (key r)) with hc | hc
    case inr => exact hc
    case inl =>
      exfalso
      have hrK := (hchar r hrl).mp hc
      have hnd : (((l.filter p).take e).map key ++
          ((l.filter p).drop e).map key).Nodup := by
        rw [← List.map_append, List.take_append_drop]
        exact hmineNodup
      rw [List.nodup_append] at hnd
      exact hnd.2.2 (List.mem_map_of_mem key hrK) (List.mem_map_of_mem key hrD)
  have hsplit : (l.filter p).filter
        (fun r => !((((l.filter p).take e).map key).contains (key r)))
      = ((l.filter p).take e ++ (l.filter p).drop e).filter
          (fun r => !((((l.filter p).take e).map key).contains (key r))) := by
    rw [List.take_append_drop]
  rw [hsplit, List.filter_append, hfK, hfD, List.nil_append]

/-- The trimming branch of `cleanup_excess_news_items`, resolved. -/
theorem cleanup_news_trim (st : Store) (secId : Nat) (c : Int)
    (hsort : st.news_items.Pairwise (fun r q => r.created_at < q.created_at))
    (hid : (st.news_items.map (fun r => r.id)).Nodup)
    (hgt : ((newsFor st secId).length : Int) > c) :
    newsFor (cleanup_excess_news_items st secId c) secId
      = (newsFor st secId).drop
          (((newsFor st secId).length : Int) - c).toNat := by
  have hmsort : (st.news_items.filter
      (fun r => r.security_id == secId)).Pairwise
      (fun r q => r.created_at < q.created_at) :=
    List.Pairwise.sublist (List.filter_sublist _) hsort
  unfold newsFor at hgt ⊢
  have hrw : (cleanup_excess_news_items st secId c).news_items
      = st.news_items.filter (fun r =>
          !((((sortByKey (fun r => r.created_at)
                (st.news_items.filter (fun r => r.security_id == secId))).take
                  (((st.news_items.filter
                      (fun r => r.security_id == secId)).length : Int) - c).toNat).map
              (fun r => r.id)).contains r.id)) := by
    unfold cleanup_excess_news_items
    rw [if_pos hgt]
  rw [hrw, sortByKey_of_sorted (fun r : NewsRow => r.created_at)
    (st.news_items.filter (fun r => r.security_id == secId)) hmsort]
  exact trim_core (fun r => r.id) _ st.news_items _ hid

/-- The no-op branch of `cleanup_excess_news_items`. -/
theorem cleanup_news_noop (st : Store) (secId : Nat) (c : Int)
    (hle : ¬(((newsFor st secId).length : Int) > c)) :
    cleanup_excess_news_items st secId c = st := by
  unfold newsFor at hle
  unfold cleanup_excess_news_items
  rw [if_neg hle]

/-- `cleanup_excess_news_items` either leaves the store alone or only
deletes news rows. -/
theorem cleanup_news_shape (st : Store) (secId : Nat) (c : Int) :
    cleanup_excess_news_items st secId c = st ∨
    ∃ q, cleanup_excess_news_items st secId c
      = { st with news_items := st.news_items.filter q } := by
  unfold cleanup_excess_news_items
  by_cases h : ((st.news_items.filter
      (fun r => r.security_id == secId)).length : Int) > c
  · right
    exact ⟨_, by rw [if_pos h]⟩
  · left
    rw [if_neg h]

/-- The trimming branch of `cleanup_excess_upcoming_events`, resolved. -/
theorem cleanup_events_trim (st : Store) (secId : Nat) (c : Int)
    (hsort : st.events.Pairwise (fun r q => r.created_at < q.created_at))
    (hid : (st.events.map (fun r => r.id)).Nodup)
    (hgt : ((eventsFor st secId).length : Int) > c) :
    eventsFor (cleanup_excess_upcoming_events st secId c) secId
      = (eventsFor st secId).drop
          (((eventsFor st secId).length : Int) - c).toNat := by
  have hmsort : (st.events.filter
      (fun r => r.security_id == secId)).Pairwise
      (fun r q => r.created_at < q.created_at) :=
    List.Pairwise.sublist (List.filter_sublist _) hsort
  unfold eventsFor at hgt ⊢
  have hrw : (cleanup_excess_upcoming_events st secId c).events
      = st.events.filter (fun r =>
          !((((sortByKey (fun r => r.created_at)
                (st.events.filter (fun r => r.security_id == secId))).take
                  (((st.events.filter
                      (fun r => r.security_id == secId)).length : Int) - c).toNat).map
              (fun r => r.id)).contains r.id)) := by
    unfold cleanup_excess_upcoming_events
    rw [if_pos hgt]
  rw [hrw, sortByKey_of_sorted (fun r : EventRow => r.created_at)
    (st.events.filter (fun r => r.security_id == secId)) hmsort]
  exact trim_core (fun r => r.id) _ st.events _ hid

/-- The no-op branch of `cleanup_excess_upcoming_events`. -/
theorem cleanup_events_noop (st : Store) (secId : Nat) (c : Int)
    (hle : ¬(((eventsFor st secId).length : Int) > c)) :
    cleanup_excess_upcoming_events st secId c = st := by
  unfold eventsFor at hle
  unfold cleanup_excess_upcoming_events
  rw [if_neg hle]

/-- `cleanup_excess_upcoming_events` either leaves the store alone or
only deletes event rows. -/
theorem cleanup_events_shape (st : Store) (secId : Nat) (c : Int) :
    cleanup_excess_upcoming_events st secId c = st ∨
    ∃ q, cleanup_excess_upcoming_events st secId c
      = { st with events := st.events.filter q } := by
  unfold cleanup_excess_upcoming_events
  by_cases h : ((st.events.filter
      (fun r => r.security_id == secId)).length : Int) > c
  · right
    exact ⟨_, by rw [if_pos h]⟩
  · left
    rw [if_neg h]

/-- C4 amended.  For every entity, item kind and cap `c`: when `c ≥ 0`
and the entity's row count `n` exceeds `c`, exactly the `n - c` rows
with earliest creation time are deleted (the retained rows are the
suffix of the creation-ordered view), leaving exactly `c` rows; when
`n ≤ c` nothing changes; and when `c ≤ 0` the entity's rows are evicted
down to zero (for `c < 0` only the `n` existing rows can be deleted,
which is where the claim's unguarded first clause fails). -/
theorem C4_amended_retention (st : Store) (secId : Nat) (c : Int)
    (hsortN : st.news_items.Pairwise (fun r q => r.created_at < q.created_at))
    (hidN : (st.news_items.map (fun r => r.id)).Nodup)
    (hsortE : st.events.Pairwise (fun r q => r.created_at < q.created_at))
    (hidE : (st.events.map (fun r => r.id)).Nodup) :
    (0 ≤ c → ((newsFor st secId).length : Int) > c →
      newsFor (cleanup_excess_news_items st secId c) secId
          = (newsFor st secId).drop ((newsFor st secId).length - c.toNat) ∧
      ((newsFor (cleanup_excess_news_items st secId c) secId).length : Int) = c) ∧
    (((newsFor st secId).length : Int) ≤ c →
      cleanup_excess_news_items st secId c = st) ∧
    (c ≤ 0 → (newsFor (cleanup_excess_news_items st secId c) secId).length = 0) ∧
    (0 ≤ c → ((eventsFor st secId).length : Int) > c →
      eventsFor (cleanup_excess_upcoming_events st secId c) secId
          = (eventsFor st secId).drop ((eventsFor st secId).length - c.toNat) ∧
      ((eventsFor (cleanup_excess_upcoming_events st secId c) secId).length : Int) = c) ∧
    (((eventsFor st secId).length : Int) ≤ c →
      cleanup_excess_upcoming_events st secId c = st) ∧
    (c ≤ 0 → (eventsFor (cleanup_excess_upcoming_events st secId c) secId).length = 0) := by
  refine ⟨?_, ?_, ?_, ?_, ?_, ?_⟩
  · intro hc hgt
    have htrim := cleanup_news_trim st secId c hsortN hidN hgt
    have he : (((newsFor st secId).length : Int) - c).toNat
        = (newsFor st secId).length - c.toNat := by omega
    constructor
    · rw [htrim, he]
    · rw [htrim, List.length_drop]
      omega
  · intro hle
    exact cleanup_news_noop st secId c (by omega)
  · intro hc
    by_cases hgt : ((newsFor st secId).length : Int) > c
    · have htrim := cleanup_news_trim st secId c hsortN hidN hgt
      rw [htrim, List.length_drop]
      omega
    · rw [cleanup_news_noop st secId c hgt]
      omega
  · intro hc hgt
    have htrim := cleanup_events_trim st secId c hsortE hidE hgt
    have he : (((eventsFor st secId).length : Int) - c).toNat
        = (eventsFor st secId).length - c.toNat := by omega
    constructor
    · rw [htrim, he]
    · rw [htrim, List.length_drop]
      omega
  · intro hle
    exact cleanup_events_noop st secId c (by omega)
  · intro hc
    by_cases hgt : ((eventsFor st secId).length : Int) > c
    · have htrim := cleanup_events_trim st secId c hsortE hidE hgt
      rw [htrim, List.length_drop]
      omega
    · rw [cleanup_events_noop st secId c hgt]
      omega

/-- Witness for C4 at `trimStore` (three news rows, three event rows)
with cap 2: the oldest row of each kind is evicted, two remain. -/
theorem C4_amended_witness :
    ((0 : Int) ≤ 2 → ((newsFor trimStore 0).length : Int) > 2 →
      newsFor (cleanup_excess_news_items trimStore 0 2) 0
          = (newsFor trimStore 0).drop ((newsFor trimStore 0).length - (2 : Int).toNat) ∧
      ((newsFor (cleanup_excess_news_items trimStore 0 2) 0).length : Int) = 2) ∧
    (((newsFor trimStore 0).length : Int) ≤ 2 →
      cleanup_excess_news_items trimStore 0 2 = trimStore) ∧
    ((2 : Int) ≤ 0 → (newsFor (cleanup_excess_news_items trimStore 0 2) 0).length = 0) ∧
    ((0 : Int) ≤ 2 → ((eventsFor trimStore 0).length : Int) > 2 →
      eventsFor (cleanup_excess_upcoming_events trimStore 0 2) 0
          = (eventsFor trimStore 0).drop ((eventsFor trimStore 0).length - (2 : Int).toNat) ∧
      ((eventsFor (cleanup_excess_upcoming_events trimStore 0 2) 0).length : Int) = 2) ∧
    (((eventsFor trimStore 0).length : Int) ≤ 2 →
      cleanup_excess_upcoming_events trimStore 0 2 = trimStore) ∧
    ((2 : Int) ≤ 0 → (eventsFor (cleanup_excess_upcoming_events trimStore 0 2) 0).length = 0) :=
  C4_amended_retention trimStore 0 2 (by decide) (by decide) (by decide) (by decide)

/-! ## Step characterizations for the orchestrated call -/

/-- `get_or_create` succeeds under the pair-uniqueness invariant. -/
theorem goc_ok_exists (st : Store) (sa : SentimentAnalysisIn)
    (h : SentimentPairsUnique st) :
    ∃ st1 sid cr, sentiment_get_or_create st sa = .ok (st1, sid, cr) := by
  rcases sentiment_filter_cases st sa h with ⟨hf, -⟩ | ⟨r0, hf, -, -, -⟩
  · exact ⟨_, _, _, by unfold sentiment_get_or_create; rw [hf]⟩
  · exact ⟨st, r0.id, false, by unfold sentiment_get_or_create; rw [hf]⟩

/-- What a successful sentiment resolution does to the store. -/
theorem goc_post (st : Store) (sa : SentimentAnalysisIn) (st1 : Store)
    (sid : Nat) (cr : Bool) (h : SentimentPairsUnique st)
    (hok : sentiment_get_or_create st sa = .ok (st1, sid, cr)) :
    st1.securities = st.securities ∧ st1.summaries = st.summaries ∧
    st1.highlights = st.highlights ∧ st1.news_items = st.news_items ∧
    st1.events = st.events ∧ st.next_id ≤ st1.next_id ∧ st1.clock = st.clock ∧
    SentimentPairsUnique st1 := by
  obtain ⟨-, hcreate, hstable⟩ := goc_spec st sa h
  rcases sentiment_filter_cases st sa h with ⟨hf, hnone⟩ | ⟨r0, hf, hmem, hs, hr⟩
  · rw [hcreate hnone] at hok
    cases hok
    obtain ⟨-, hinv⟩ := hstable _ _ _ (hcreate hnone)
    exact ⟨rfl, rfl, rfl, rfl, rfl, Nat.le_succ _, rfl, hinv⟩
  · have hgoc : sentiment_get_or_create st sa = .ok (st, r0.id, false) := by
      unfold sentiment_get_or_create
      rw [hf]
    rw [hgoc] at hok
    cases hok
    exact ⟨rfl, rfl, rfl, rfl, rfl, Nat.le_refl _, rfl, h⟩

/-- Under the one-to-one invariant a security's summary filter is `[]`
or a singleton. -/
theorem summaries_filter_cases (st : Store) (secId : Nat)
    (h : SummariesOneToOne st) :
    st.summaries.filter (fun r => r.security_id == secId) = [] ∨
    ∃ r, st.summaries.filter (fun r => r.security_id == secId) = [r] := by
  unfold SummariesOneToOne at h
  cases hf : st.summaries.filter (fun r => r.security_id == secId) with
  | nil => exact Or.inl rfl
  | cons r rest =>
      cases rest with
      | nil => exact Or.inr ⟨r, rfl⟩
      | cons r2 rest2 =>
          exfalso
          have hsub : (r :: r2 :: rest2).Sublist st.summaries := by
            rw [← hf]; exact List.filter_sublist _
          have hpw := List.Pairwise.sublist hsub h
          have hrel := (List.pairwise_cons.mp hpw).1 r2 (List.mem_cons_self r2 rest2)
          have hmr : r ∈ st.summaries.filter (fun r => r.security_id == secId) := by
            rw [hf]; simp
          have hmr2 : r2 ∈ st.summaries.filter (fun r => r.security_id == secId) := by
            rw [hf]; simp
          have h1 := List.of_mem_filter hmr
          have h2 := List.of_mem_filter hmr2
          rw [beq_iff_eq] at h1 h2
          exact hrel (h1.trans h2.symm)

/-- The upsert succeeds under the one-to-one invariant. -/
theorem uoc_ok_exists (st : Store) (secId : Nat) (a : StructuredStockAnalysis)
    (sentId : Nat) (h : SummariesOneToOne st) :
    ∃ st2 j cr, summary_update_or_create st secId a sentId = .ok (st2, j, cr) := by
  rcases summaries_filter_cases st secId h with hf | ⟨r, hf⟩
  · exact ⟨_, _, _, by unfold summary_update_or_create; rw [hf]⟩
  · exact ⟨_, _, _, by unfold summary_update_or_create; rw [hf]⟩

/-- What a successful summary upsert does to the store: only the
summaries table changes; the security ends with exactly one summary row
carrying the analysis content; the row id is stable across upserts. -/
theorem uoc_post (st : Store) (secId : Nat) (a : StructuredStockAnalysis)
    (sentId : Nat) (st2 : Store) (j : Nat) (cr : Bool)
    (h : SummariesOneToOne st)
    (hok : summary_update_or_create st secId a sentId = .ok (st2, j, cr)) :
    st2.securities = st.securities ∧ st2.sentiments = st.sentiments ∧
    st2.highlights = st.highlights ∧ st2.news_items = st.news_items ∧
    st2.events = st.events ∧ st.next_id ≤ st2.next_id ∧ st2.clock = st.clock ∧
    SummariesOneToOne st2 ∧
    (∃ r, st2.summaries.filter (fun q => q.security_id == secId) = [r] ∧
      r.id = j ∧ r.security_id = secId ∧ summaryContent a r) ∧
    (∀ r0, st.summaries.filter (fun q => q.security_id == secId) = [r0] →
      j = r0.id) := by
  rcases summaries_filter_cases st secId h with hf | ⟨r, hf⟩
  · have hcomp : summary_update_or_create st secId a sentId
        = .ok ({ st with
                  summaries := st.summaries ++
                    [⟨st.next_id, secId, a.executive_summary, a.summary,
                      a.positive_catalysts, a.risk_factors, sentId,
                      a.key_metrics, a.disclaimer⟩],
                  next_id := st.next_id + 1 }, st.next_id, true) := by
      unfold summary_update_or_create
      rw [hf]
    rw [hcomp] at hok
    cases hok
    have hnomatch := List.filter_eq_nil_iff.mp hf
    refine ⟨rfl, rfl, rfl, rfl, rfl, Nat.le_succ _, rfl, ?_, ?_, ?_⟩
    · unfold SummariesOneToOne at h ⊢
      rw [List.pairwise_append]
      refine ⟨h, List.pairwise_singleton _ _, ?_⟩
      intro q hq b hb
      simp only [List.mem_singleton] at hb
      subst hb
      have := hnomatch q hq
      rw [beq_iff_eq] at this
      exact this
    · refine ⟨⟨st.next_id, secId, a.executive_summary, a.summary,
        a.positive_catalysts, a.risk_factors, sentId,
        a.key_metrics, a.disclaimer⟩, ?_, rfl, rfl,
        rfl, rfl, rfl, rfl, rfl, rfl⟩
      show (st.summaries ++ [_]).filter _ = _
      rw [List.filter_append, hf]
      simp
    · intro r0 hr0
      rw [hf] at hr0
      cases hr0
  · have hcomp : summary_update_or_create st secId a sentId
        = .ok ({ st with
                  summaries := st.summaries.map (fun q =>
                    if q.id == r.id then
                      { q with
                        executive_summary := a.executive_summary,
                        summary := a.summary,
                        positive_catalysts := a.positive_catalysts,
                        risk_factors := a.risk_factors,
                        overall_sentiment_id := sentId,
                        key_metrics := a.key_metrics,
                        disclaimer := a.disclaimer }
                    else q) }, r.id, false) := by
      unfold summary_update_or_create
      rw [hf]
    rw [hcomp] at hok
    cases hok
    have hrsec : r.security_id = secId := by
      have : r ∈ st.summaries.filter (fun q => q.security_id == secId) := by
        rw [hf]; exact List.mem_cons_self r []
      have := List.of_mem_filter this
      rwa [beq_iff_eq] at this
    have hsecf : ∀ q : SummaryRow,
        ((if q.id == r.id then
            { q with
              executive_summary := a.executive_summary,
              summary := a.summary,
              positive_catalysts := a.positive_catalysts,
              risk_factors := a.risk_factors,
              overall_sentiment_id := sentId,
              key_metrics := a.key_metrics,
              disclaimer := a.disclaimer }
          else q) : SummaryRow).security_id = q.security_id := by
      intro q
      by_cases hq : (q.id == r.id) = true
      · rw [if_pos hq]
      · rw [if_neg hq]
    refine ⟨rfl, rfl, rfl, rfl, rfl, Nat.le_refl _, rfl, ?_, ?_, ?_⟩
    · unfold SummariesOneToOne at h ⊢
      refine List.Pairwise.map _ ?_ h
      intro x y hxy
      rw [hsecf x, hsecf y]
      exact hxy
    · refine ⟨{ r with
          executive_summary := a.executive_summary,
          summary := a.summary,
          positive_catalysts := a.positive_catalysts,
          risk_factors := a.risk_factors,
          overall_sentiment_id := sentId,
          key_metrics := a.key_metrics,
          disclaimer := a.disclaimer }, ?_, rfl, hrsec,
        rfl, rfl, rfl, rfl, rfl, rfl⟩
      show (st.summaries.map _).filter _ = _
      rw [List.filter_map]
      have hcong : st.summaries.filter
          ((fun q : SummaryRow => q.security_id == secId) ∘ (fun q =>
            if q.id == r.id then
              { q with
                executive_summary := a.executive_summary,
                summary := a.summary,
                positive_catalysts := a.positive_catalysts,
                risk_factors := a.risk_factors,
                overall_sentiment_id := sentId,
                key_metrics := a.key_metrics,
                disclaimer := a.disclaimer }
            else q))
          = st.summaries.filter (fun q => q.security_id == secId) := by
        refine List.filter_congr ?_
        intro q _
        simp only [Function.comp]
        rw [hsecf q]
      rw [hcong, hf]
      simp
    · intro r0 hr0
      rw [hf] at hr0
      cases hr0
      rfl

/-- The highlight creation loop: only the highlight table and the id
counter move, and the content of the target summary's list grows by the
enumerated pairs in order. -/
theorem create_highlights_post (sumId : Nat) (l : List (Nat × String)) :
    ∀ st : Store,
    (create_highlights sumId st l).securities = st.securities ∧
    (create_highlights sumId st l).sentiments = st.sentiments ∧
    (create_highlights sumId st l).summaries = st.summaries ∧
    (create_highlights sumId st l).news_items = st.news_items ∧
    (create_highlights sumId st l).events = st.events ∧
    st.next_id ≤ (create_highlights sumId st l).next_id ∧
    (create_highlights sumId st l).clock = st.clock ∧
    hlContent (create_highlights sumId st l) sumId
      = hlContent st sumId ++ l.map (fun p => (p.2, p.1)) := by
  induction l with
  | nil =>
      intro st
      exact ⟨rfl, rfl, rfl, rfl, rfl, Nat.le_refl _, rfl, by simp [create_highlights]⟩
  | cons p rest ih =>
      intro st
      obtain ⟨ord, htext⟩ := p
      rw [show create_highlights sumId st ((ord, htext) :: rest)
            = create_highlights sumId
                { st with
                  highlights := st.highlights ++ [⟨st.next_id, sumId, htext, ord⟩],
                  next_id := st.next_id + 1 } rest from rfl]
      obtain ⟨i1, i2, i3, i4, i5, i6, i7, i8⟩ := ih
        { st with
          highlights := st.highlights ++ [⟨st.next_id, sumId, htext, ord⟩],
          next_id := st.next_id + 1 }
      refine ⟨i1, i2, i3, i4, i5, Nat.le_trans (Nat.le_succ _) i6, i7, ?_⟩
      rw [i8]
      have hbase : hlContent
          { st with
            highlights := st.highlights ++ [⟨st.next_id, sumId, htext, ord⟩],
            next_id := st.next_id + 1 } sumId
          = hlContent st sumId ++ [(htext, ord)] := by
        unfold hlContent
        rw [List.filter_append, List.map_append]
        simp
      rw [hbase, List.append_assoc]
      rfl

/-- Deleting a summary's highlights leaves it with no observable
content. -/
theorem hl_deleted_content (st : Store) (sumId : Nat) :
    hlContent
      { st with highlights := st.highlights.filter (fun h => !(h.summary_id == sumId)) }
      sumId = [] := by
  unfold hlContent
  rw [List.filter_filter]
  have : st.highlights.filter
      (fun a => a.summary_id == sumId && !(a.summary_id == sumId)) = [] := by
    rw [List.filter_eq_nil_iff]
    intro a _
    by_cases ha : (a.summary_id == sumId) = true
    · simp [ha]
    · simp [ha]
  rw [this]
  rfl

/-- What highlight replacement does: only the highlight table and the id
counter move, and the target summary's content becomes exactly the
enumerated incoming list. -/
theorem hl_replace_post (st : Store) (sumId : Nat) (hs : List String) :
    (key_highlights_replace st sumId hs).securities = st.securities ∧
    (key_highlights_replace st sumId hs).sentiments = st.sentiments ∧
    (key_highlights_replace st sumId hs).summaries = st.summaries ∧
    (key_highlights_replace st sumId hs).news_items = st.news_items ∧
    (key_highlights_replace st sumId hs).events = st.events ∧
    st.next_id ≤ (key_highlights_replace st sumId hs).next_id ∧
    (key_highlights_replace st sumId hs).clock = st.clock ∧
    hlContent (key_highlights_replace st sumId hs) sumId
      = hs.enum.map (fun p => (p.2, p.1)) := by
  unfold key_highlights_replace
  obtain ⟨i1, i2, i3, i4, i5, i6, i7, i8⟩ := create_highlights_post sumId hs.enum
    { st with highlights := st.highlights.filter (fun h => !(h.summary_id == sumId)) }
  refine ⟨i1, i2, i3, i4, i5, i6, i7, ?_⟩
  rw [i8, hl_deleted_content, List.nil_append]

/-- News merging only appends news rows (for the given security) and
advances the counters; every other table is untouched. -/
theorem merge_post (secId : Nat) (today : PyDate) :
    ∀ (l : List NewsItemIn) (st : Store) (k : Nat) (st' : Store) (k' : Nat),
      merge_news_items secId today st l k = .ok (st', k') →
      st'.securities = st.securities ∧ st'.sentiments = st.sentiments ∧
      st'.summaries = st.summaries ∧ st'.highlights = st.highlights ∧
      st'.events = st.events ∧ st.next_id ≤ st'.next_id ∧ st.clock ≤ st'.clock ∧
      ∃ ext, st'.news_items = st.news_items ++ ext ∧
        ∀ r ∈ ext, r.security_id = secId := by
  intro l
  induction l with
  | nil =>
      intro st k st' k' h
      have hst : st = st' := by
        have h2 := h
        simp only [merge_news_items, Except.ok.injEq, Prod.mk.injEq] at h2
        exact h2.1
      subst hst
      exact ⟨rfl, rfl, rfl, rfl, rfl, Nat.le_refl _, Nat.le_refl _, [], by simp, by simp⟩
  | cons nd rest ih =>
      intro st k st' k' h
      simp only [merge_news_items] at h
      by_cases hx : url_exists st nd.url = true
      · rw [if_pos hx] at h
        exact ih st k st' k' h
      · rw [if_neg hx] at h
        rcases hp : parse_date_string nd.date with e | pd
        · rw [hp] at h
          cases h
        · rw [hp] at h
          obtain ⟨i1, i2, i3, i4, i5, i6, i7, ext, hext, hsec⟩ := ih _ _ _ _ h
          refine ⟨i1, i2, i3, i4, i5,
            Nat.le_trans (Nat.le_succ _) i6, Nat.le_trans (Nat.le_succ _) i7,
            ⟨st.next_id, secId, nd.headline, pd.getD today, nd.source, nd.url,
              nd.favicon, nd.impact_level, nd.summary, st.clock⟩ :: ext, ?_, ?_⟩
          · rw [hext]
            simp
          · intro r hr
            rcases List.mem_cons.mp hr with hr | hr
            · rw [hr]
            · exact hsec r hr

/-- A URL present before the merge is still present after it. -/
theorem merge_url_persists (secId : Nat) (today : PyDate)
    (l : List NewsItemIn) (st : Store) (k : Nat) (st' : Store) (k' : Nat)
    (h : merge_news_items secId today st l k = .ok (st', k'))
    (u : String) (hu : url_exists st u = true) : url_exists st' u = true := by
  obtain ⟨-, -, -, -, -, -, -, ext, hext, -⟩ := merge_post secId today l st k st' k' h
  rw [url_exists_iff] at hu ⊢
  rw [hext, List.map_append]
  exact List.mem_append_left _ hu

/-- After a successful merge every incoming URL is present in the store
(either it already was, or its row was just inserted). -/
theorem merge_urls_present (secId : Nat) (today : PyDate) :
    ∀ (l : List NewsItemIn) (st : Store) (k : Nat) (st' : Store) (k' : Nat),
      merge_news_items secId today st l k = .ok (st', k') →
      ∀ nd ∈ l, url_exists st' nd.url = true := by
  intro l
  induction l with
  | nil =>
      intro st k st' k' h nd hnd
      cases hnd
  | cons nd0 rest ih =>
      intro st k st' k' h nd hnd
      simp only [merge_news_items] at h
      by_cases hx : url_exists st nd0.url = true
      · rw [if_pos hx] at h
        rcases List.mem_cons.mp hnd with hnd | hnd
        · subst hnd
          exact merge_url_persists secId today rest st k st' k' h nd.url hx
        · exact ih st k st' k' h nd hnd
      · rw [if_neg hx] at h
        rcases hp : parse_date_string nd0.date with e | pd
        · rw [hp] at h
          cases h
        · rw [hp] at h
          rcases List.mem_cons.mp hnd with hnd | hnd
          · subst hnd
            refine merge_url_persists secId today rest _ _ st' k' h nd.url ?_
            rw [url_exists_iff, List.map_append]
            simp
          · exact ih _ _ st' k' h nd hnd

/-- When every incoming URL is already stored the merge is a no-op. -/
theorem merge_all_present_noop (secId : Nat) (today : PyDate) :
    ∀ (l : List NewsItemIn) (st : Store) (k : Nat),
      (∀ nd ∈ l, url_exists st nd.url = true) →
      merge_news_items secId today st l k = .ok (st, k) := by
  intro l
  induction l with
  | nil =>
      intro st k _
      rfl
  | cons nd rest ih =>
      intro st k hall
      show merge_news_items secId today st (nd :: rest) k = .ok (st, k)
      simp only [merge_news_items]
      rw [if_pos (hall nd (List.mem_cons_self nd rest))]
      exact ih st k (fun nd2 h2 => hall nd2 (List.mem_cons_of_mem nd h2))

/-- The merge succeeds whenever no date string raises. -/
theorem merge_ok_of_datesOk (secId : Nat) (today : PyDate) :
    ∀ (l : List NewsItemIn) (st : Store) (k : Nat), datesOk l →
      ∃ st' k', merge_news_items secId today st l k = .ok (st', k') := by
  intro l
  induction l with
  | nil =>
      intro st k _
      exact ⟨st, k, rfl⟩
  | cons nd rest ih =>
      intro st k hd
      unfold datesOk at hd
      rw [List.all_cons, Bool.and_eq_true] at hd
      by_cases hx : url_exists st nd.url = true
      · obtain ⟨st', k', hrec⟩ := ih st k hd.2
        refine ⟨st', k', ?_⟩
        simp only [merge_news_items]
        rw [if_pos hx]
        exact hrec
      · rcases hp : parse_date_string nd.date with e | pd
        · exfalso
          have := hd.1
          unfold parseOk at this
          rw [hp] at this
          cases this
        · obtain ⟨st', k', hrec⟩ := ih _ (k + 1) hd.2
          refine ⟨st', k', ?_⟩
          simp only [merge_news_items]
          rw [if_neg hx, hp]
          exact hrec

/-- `NewsInv` survives any change that keeps the news rows (as a
sublist) while counters only grow. -/
theorem newsinv_sublist {st st' : Store} (h : NewsInv st)
    (hn : st'.news_items.Sublist st.news_items)
    (hid : st.next_id ≤ st'.next_id) (hcl : st.clock ≤ st'.clock) :
    NewsInv st' := by
  obtain ⟨h1, h2, h3, h4⟩ := h
  refine ⟨List.Pairwise.sublist hn h1,
    List.Nodup.sublist (List.Sublist.map _ hn) h2,
    List.Nodup.sublist (List.Sublist.map _ hn) h3, ?_⟩
  intro r hr
  obtain ⟨b1, b2⟩ := h4 r (hn.subset hr)
  exact ⟨Nat.lt_of_lt_of_le b1 hid, Nat.lt_of_lt_of_le b2 hcl⟩

/-- The merge preserves `NewsInv`: appended rows take the fresh id and
the fresh clock tick, so ordering, key freshness and URL uniqueness all
survive. -/
theorem merge_newsinv (secId : Nat) (today : PyDate) :
    ∀ (l : List NewsItemIn) (st : Store) (k : Nat) (st' : Store) (k' : Nat),
      merge_news_items secId today st l k = .ok (st', k') →
      NewsInv st → NewsInv st' := by
  intro l
  induction l with
  | nil =>
      intro st k st' k' h hinv
      have hst : st = st' := by
        have h2 := h
        simp only [merge_news_items, Except.ok.injEq, Prod.mk.injEq] at h2
        exact h2.1
      subst hst
      exact hinv
  | cons nd rest ih =>
      intro st k st' k' h hinv
      simp only [merge_news_items] at h
      by_cases hx : url_exists st nd.url = true
      · rw [if_pos hx] at h
        exact ih st k st' k' h hinv
      · rw [if_neg hx] at h
        rcases hp : parse_date_string nd.date with e | pd
        · rw [hp] at h
          cases h
        · rw [hp] at h
          refine ih _ _ st' k' h ?_
          obtain ⟨h1, h2, h3, h4⟩ := hinv
          refine ⟨?_, ?_, ?_, ?_⟩
          · rw [List.pairwise_append]
            refine ⟨h1, List.pairwise_singleton _ _, ?_⟩
            intro r hr b hb
            simp only [List.mem_singleton] at hb
            subst hb
            exact (h4 r hr).2
          · rw [List.map_append, List.nodup_append]
            refine ⟨h2, by simp, ?_⟩
            intro x hmem hsing
            simp only [List.map_cons, List.map_nil, List.mem_singleton] at hsing
            subst hsing
            rw [List.mem_map] at hmem
            obtain ⟨q, hq, hqid⟩ := hmem
            exact Nat.lt_irrefl _ (hqid ▸ (h4 q hq).1)
          · rw [List.map_append, List.nodup_append]
            refine ⟨h3, by simp, ?_⟩
            intro x hmem hsing
            simp only [List.map_cons, List.map_nil, List.mem_singleton] at hsing
            subst hsing
            exact hx (url_exists_iff.mpr hmem)
          · intro r hr
            rcases List.mem_append.mp hr with hr | hr
            · obtain ⟨b1, b2⟩ := h4 r hr
              exact ⟨Nat.lt_succ_of_lt b1, Nat.lt_succ_of_lt b2⟩
            · simp only [List.mem_singleton] at hr
              subst hr
              exact ⟨Nat.lt_succ_self _, Nat.lt_succ_self _⟩

/-- Per-security view of the merge's append. -/
theorem merge_newsFor (secId : Nat) (today : PyDate)
    (l : List NewsItemIn) (st : Store) (k : Nat) (st' : Store) (k' : Nat)
    (h : merge_news_items secId today st l k = .ok (st', k')) :
    ∃ ext, st'.news_items = st.news_items ++ ext ∧
      newsFor st' secId = newsFor st secId ++ ext := by
  obtain ⟨-, -, -, -, -, -, -, ext, hext, hsec⟩ := merge_post secId today l st k st' k' h
  refine ⟨ext, hext, ?_⟩
  unfold newsFor
  rw [hext, List.filter_append]
  have : ext.filter (fun r => r.security_id == secId) = ext := by
    rw [List.filter_eq_self]
    intro r hr
    rw [beq_iff_eq]
    exact hsec r hr
  rw [this]

/-- The event-append loop: only the event table and the counters move. -/
theorem events_append_post (secId : Nat) (l : List UpcomingEventIn) :
    ∀ st : Store,
    (append_upcoming_events secId st l).securities = st.securities ∧
    (append_upcoming_events secId st l).sentiments = st.sentiments ∧
    (append_upcoming_events secId st l).summaries = st.summaries ∧
    (append_upcoming_events secId st l).highlights = st.highlights ∧
    (append_upcoming_events secId st l).news_items = st.news_items ∧
    st.next_id ≤ (append_upcoming_events secId st l).next_id ∧
    st.clock ≤ (append_upcoming_events secId st l).clock := by
  induction l with
  | nil =>
      intro st
      exact ⟨rfl, rfl, rfl, rfl, rfl, Nat.le_refl _, Nat.le_refl _⟩
  | cons ev rest ih =>
      intro st
      rw [show append_upcoming_events secId st (ev :: rest)
            = append_upcoming_events secId
                { st with
                  events := st.events ++
                    [⟨st.next_id, secId, ev.event, ev.date, ev.category,
                      ev.importance, st.clock⟩],
                  next_id := st.next_id + 1,
                  clock := st.clock + 1 } rest from rfl]
      obtain ⟨i1, i2, i3, i4, i5, i6, i7⟩ := ih
        { st with
          events := st.events ++
            [⟨st.next_id, secId, ev.event, ev.date, ev.category,
              ev.importance, st.clock⟩],
          next_id := st.next_id + 1,
          clock := st.clock + 1 }
      exact ⟨i1, i2, i3, i4, i5,
        Nat.le_trans (Nat.le_succ _) i6, Nat.le_trans (Nat.le_succ _) i7⟩

/-! ## C2 — transactional revert on highlight failure -/

/-- C2. "If a failure occurs during highlight replacement after the
summary upsert has already executed within the same ingestion call, the
summary row reverts to its pre-call state: no partial write from that
ingestion call is ever observable outside the transaction."  The first
conjunct shows the run up to and including the upsert succeeded and had
already written the new summary content; the second shows the
caller-observable result of the faulted call is exactly the pre-call
store. -/
theorem C2_atomic_revert (today : PyDate) (st : Store) (sec : SecurityRow)
    (a : StructuredStockAnalysis) (mn me : Option Int) (skip : Bool)
    (h1 : SentimentPairsUnique st) (h2 : SummariesOneToOne st) :
    (∃ stMid j cr,
      (match sentiment_get_or_create st a.overall_sentiment with
       | .ok (st1, sid, _) => summary_update_or_create st1 sec.id a sid
       | .error e => .error e) = .ok (stMid, j, cr) ∧
      (stMid.summaries.filter (fun q => q.security_id == sec.id)).map
          (fun r => r.executive_summary) = [a.executive_summary]) ∧
    run_ingestion [Step.highlightReplace] today st sec a mn me skip
      = (st, .error (.injected .highlightReplace)) := by
  obtain ⟨st1, sid, cr1, hgoc⟩ := goc_ok_exists st a.overall_sentiment h1
  obtain ⟨-, hsum1, -, -, -, -, -, -⟩ := goc_post st a.overall_sentiment st1 sid cr1 h1 hgoc
  have h2' : SummariesOneToOne st1 := by
    unfold SummariesOneToOne at h2 ⊢
    rw [hsum1]
    exact h2
  obtain ⟨st2, j, cr2, huoc⟩ := uoc_ok_exists st1 sec.id a sid h2'
  obtain ⟨-, -, -, -, -, -, -, -, ⟨r, hr, hrid, hrsec, hrcont⟩, -⟩ :=
    uoc_post st1 sec.id a sid st2 j cr2 h2' huoc
  constructor
  · refine ⟨st2, j, cr2, ?_, ?_⟩
    · rw [hgoc]
      exact huoc
    · rw [hr, List.map_cons, List.map_nil, hrcont.1]
  · unfold run_ingestion save_analysis_body
    simp only [hgoc, huoc]
    simp

/-- Witness for C2 at the demo fixtures: the upsert writes, the faulted
call reverts to `baseStore`. -/
theorem C2_witness :
    (∃ stMid j cr,
      (match sentiment_get_or_create baseStore demoAnalysis.overall_sentiment with
       | .ok (st1, sid, _) => summary_update_or_create st1 secAAPL.id demoAnalysis sid
       | .error e => .error e) = .ok (stMid, j, cr) ∧
      (stMid.summaries.filter (fun q => q.security_id == secAAPL.id)).map
          (fun r => r.executive_summary) = [demoAnalysis.executive_summary]) ∧
    run_ingestion [Step.highlightReplace] demoToday baseStore secAAPL demoAnalysis
        none none false
      = (baseStore, .error (.injected .highlightReplace)) :=
  C2_atomic_revert demoToday baseStore secAAPL demoAnalysis none none false
    (by unfold SentimentPairsUnique; decide) (by unfold SummariesOneToOne; decide)

/-! ## C3 — error propagation per step -/

/-- C3 amended.  An error raised inside sentiment resolution, summary
upsert, highlight replacement, news merge, or event append aborts the
whole orchestrated call with every write rolled back (the caller sees
the pre-call store) and propagates as a failure; an error raised inside
either retention-trimming step, however, is caught by the cleanup
helpers' `try/except` and the call still commits and returns
successfully. -/
theorem C3_amended_propagation (today : PyDate) (st : Store) (sec : SecurityRow)
    (a : StructuredStockAnalysis) (mn me : Option Int)
    (h1 : SentimentPairsUnique st) (h2 : SummariesOneToOne st)
    (hd : datesOk a.recent_news) :
    (∀ s ∈ [Step.sentiment, Step.summaryUpsert, Step.highlightReplace,
        Step.newsMerge, Step.eventAppend],
      run_ingestion [s] today st sec a mn me false
        = (st, .error (.injected s))) ∧
    (∀ s ∈ [Step.newsTrim, Step.eventTrim],
      ∃ st' j, run_ingestion [s] today st sec a mn me false = (st', .ok j)) := by
  obtain ⟨st1, sid, cr1, hgoc⟩ := goc_ok_exists st a.overall_sentiment h1
  obtain ⟨-, hsum1, -, -, -, -, -, -⟩ := goc_post st a.overall_sentiment st1 sid cr1 h1 hgoc
  have h2' : SummariesOneToOne st1 := by
    unfold SummariesOneToOne at h2 ⊢
    rw [hsum1]
    exact h2
  obtain ⟨st2, j, cr2, huoc⟩ := uoc_ok_exists st1 sec.id a sid h2'
  obtain ⟨st4, k4, hmerge⟩ := merge_ok_of_datesOk sec.id today a.recent_news
    (key_highlights_replace st2 j a.key_highlights) 0 hd
  constructor
  · intro s hs
    fin_cases hs
    · simp [run_ingestion, save_analysis_body]
    · simp [run_ingestion, save_analysis_body, hgoc]
    · simp [run_ingestion, save_analysis_body, hgoc, huoc]
    · simp [run_ingestion, save_analysis_body, hgoc, huoc]
    · simp [run_ingestion, save_analysis_body, hgoc, huoc, hmerge,
        cleanup_news_guarded]
  · intro s hs
    fin_cases hs
    · refine ⟨cleanup_events_guarded [Step.newsTrim]
        (append_upcoming_events sec.id
          (cleanup_news_guarded [Step.newsTrim] st4 sec.id
            (effectiveMax mn MAX_NEWS_ITEMS_PER_SECURITY)) a.upcoming_events)
        sec.id (effectiveMax me MAX_UPCOMING_EVENTS_PER_SECURITY), j, ?_⟩
      unfold run_ingestion
      have hbody : save_analysis_body [Step.newsTrim] today st sec a mn me false
          = .ok (cleanup_events_guarded [Step.newsTrim]
              (append_upcoming_events sec.id
                (cleanup_news_guarded [Step.newsTrim] st4 sec.id
                  (effectiveMax mn MAX_NEWS_ITEMS_PER_SECURITY)) a.upcoming_events)
              sec.id (effectiveMax me MAX_UPCOMING_EVENTS_PER_SECURITY), j) := by
        simp [save_analysis_body, hgoc, huoc, hmerge]
      rw [hbody]
    · refine ⟨cleanup_events_guarded [Step.eventTrim]
        (append_upcoming_events sec.id
          (cleanup_news_guarded [Step.eventTrim] st4 sec.id
            (effectiveMax mn MAX_NEWS_ITEMS_PER_SECURITY)) a.upcoming_events)
        sec.id (effectiveMax me MAX_UPCOMING_EVENTS_PER_SECURITY), j, ?_⟩
      unfold run_ingestion
      have hbody : save_analysis_body [Step.eventTrim] today st sec a mn me false
          = .ok (cleanup_events_guarded [Step.eventTrim]
              (append_upcoming_events sec.id
                (cleanup_news_guarded [Step.eventTrim] st4 sec.id
                  (effectiveMax mn MAX_NEWS_ITEMS_PER_SECURITY)) a.upcoming_events)
              sec.id (effectiveMax me MAX_UPCOMING_EVENTS_PER_SECURITY), j) := by
        simp [save_analysis_body, hgoc, huoc, hmerge]
      rw [hbody]

/-- Witness for C3 at the demo fixtures. -/
theorem C3_amended_witness :
    (∀ s ∈ [Step.sentiment, Step.summaryUpsert, Step.highlightReplace,
        Step.newsMerge, Step.eventAppend],
      run_ingestion [s] demoToday baseStore secAAPL demoAnalysis none none false
        = (baseStore, .error (.injected s))) ∧
    (∀ s ∈ [Step.newsTrim, Step.eventTrim],
      ∃ st' j, run_ingestion [s] demoToday baseStore secAAPL demoAnalysis
          none none false = (st', .ok j)) :=
  C3_amended_propagation demoToday baseStore secAAPL demoAnalysis none none
    (by unfold SentimentPairsUnique; decide) (by unfold SummariesOneToOne; decide)
    (by unfold datesOk; decide)

/-! ## Assembled characterization of a no-fault ingestion call -/

/-- With no injected faults the guarded news trim is the raw trim. -/
theorem cleanup_news_guarded_nil (st : Store) (secId : Nat) (c : Int) :
    cleanup_news_guarded [] st secId c = cleanup_excess_news_items st secId c := rfl

/-- With no injected faults the guarded event trim is the raw trim. -/
theorem cleanup_events_guarded_nil (st : Store) (secId : Nat) (c : Int) :
    cleanup_events_guarded [] st secId c = cleanup_excess_upcoming_events st secId c := rfl

/-- News trimming touches only the news table. -/
theorem cleanup_news_frames (st : Store) (secId : Nat) (c : Int) :
    (cleanup_excess_news_items st secId c).securities = st.securities ∧
    (cleanup_excess_news_items st secId c).sentiments = st.sentiments ∧
    (cleanup_excess_news_items st secId c).summaries = st.summaries ∧
    (cleanup_excess_news_items st secId c).highlights = st.highlights ∧
    (cleanup_excess_news_items st secId c).events = st.events ∧
    (cleanup_excess_news_items st secId c).next_id = st.next_id ∧
    (cleanup_excess_news_items st secId c).clock = st.clock ∧
    (cleanup_excess_news_items st secId c).news_items.Sublist st.news_items := by
  simp only [cleanup_excess_news_items]
  split
  · exact ⟨rfl, rfl, rfl, rfl, rfl, rfl, rfl, List.filter_sublist _⟩
  · exact ⟨rfl, rfl, rfl, rfl, rfl, rfl, rfl, List.Sublist.refl _⟩

/-- Event trimming touches only the event table. -/
theorem cleanup_events_frames (st : Store) (secId : Nat) (c : Int) :
    (cleanup_excess_upcoming_events st secId c).securities = st.securities ∧
    (cleanup_excess_upcoming_events st secId c).sentiments = st.sentiments ∧
    (cleanup_excess_upcoming_events st secId c).summaries = st.summaries ∧
    (cleanup_excess_upcoming_events st secId c).highlights = st.highlights ∧
    (cleanup_excess_upcoming_events st secId c).news_items = st.news_items ∧
    (cleanup_excess_upcoming_events st secId c).next_id = st.next_id ∧
    (cleanup_excess_upcoming_events st secId c).clock = st.clock := by
  simp only [cleanup_excess_upcoming_events]
  split
  · exact ⟨rfl, rfl, rfl, rfl, rfl, rfl, rfl⟩
  · exact ⟨rfl, rfl, rfl, rfl, rfl, rfl, rfl⟩

/-- `NewsInv` transported along an unchanged news table. -/
theorem newsinv_of_eq {st st' : Store} (h : NewsInv st)
    (hn : st'.news_items = st.news_items)
    (hid : st.next_id ≤ st'.next_id) (hcl : st.clock ≤ st'.clock) : NewsInv st' :=
  newsinv_sublist h (by rw [hn]) hid hcl

/-- `SentimentPairsUnique` depends only on the sentiment table. -/
theorem spu_of_eq {st st' : Store} (h : SentimentPairsUnique st)
    (he : st'.sentiments = st.sentiments) : SentimentPairsUnique st' := by
  unfold SentimentPairsUnique at h ⊢
  rw [he]
  exact h

/-- `SummariesOneToOne` depends only on the summary table. -/
theorem s12o_of_eq {st st' : Store} (h : SummariesOneToOne st)
    (he : st'.summaries = st.summaries) : SummariesOneToOne st' := by
  unfold SummariesOneToOne at h ⊢
  rw [he]
  exact h

/-- `url_exists` depends only on the news table. -/
theorem url_exists_congr {st st' : Store}
    (hn : st'.news_items = st.news_items) (u : String) :
    url_exists st' u = url_exists st u := by
  unfold url_exists
  rw [hn]

/-- `newsFor` depends only on the news table. -/
theorem newsFor_congr {st st' : Store}
    (hn : st'.news_items = st.news_items) (secId : Nat) :
    newsFor st' secId = newsFor st secId := by
  unfold newsFor
  rw [hn]

/-- `hlContent` depends only on the highlight table. -/
theorem hlContent_congr {st st' : Store}
    (hh : st'.highlights = st.highlights) (i : Nat) :
    hlContent st' i = hlContent st i := by
  unfold hlContent
  rw [hh]


/-- Postconditions of one successful fault-free `save_analysis_to_db`
call: invariants are preserved; the security ends with exactly one
summary row (its id stable across calls) carrying the analysis content;
the highlight content equals the enumerated incoming list; the news
table ends either with every incoming URL present and the entity within
cap (or cleanup skipped), or trimmed to exactly the cap; and two
re-ingestion laws: when every incoming URL is already stored and the
entity is within cap (or cleanup skipped) the news table is unchanged,
and when the entity sits exactly at the cap it stays there. -/
theorem body_post (today : PyDate) (st : Store) (sec : SecurityRow)
    (a : StructuredStockAnalysis) (mn me : Option Int) (skip : Bool)
    (stf : Store) (j : Nat)
    (h1 : SentimentPairsUnique st) (h2 : SummariesOneToOne st) (hni : NewsInv st)
    (hok : save_analysis_body [] today st sec a mn me skip = .ok (stf, j)) :
    SentimentPairsUnique stf ∧ SummariesOneToOne stf ∧ NewsInv stf ∧
    (∃ r, stf.summaries.filter (fun q => q.security_id == sec.id) = [r] ∧
       r.id = j ∧ r.security_id = sec.id ∧ summaryContent a r) ∧
    (∀ r0, st.summaries.filter (fun q => q.security_id == sec.id) = [r0] →
       j = r0.id) ∧
    hlContent stf j = a.key_highlights.enum.map (fun p => (p.2, p.1)) ∧
    (((∀ nd ∈ a.recent_news, url_exists stf nd.url = true) ∧
        (skip = true ∨ ((newsFor stf sec.id).length : Int)
          ≤ effectiveMax mn MAX_NEWS_ITEMS_PER_SECURITY)) ∨
      (skip = false ∧ (newsFor stf sec.id).length
          = (effectiveMax mn MAX_NEWS_ITEMS_PER_SECURITY).toNat)) ∧
    ((∀ nd ∈ a.recent_news, url_exists st nd.url = true) →
      (skip = true ∨ ((newsFor st sec.id).length : Int)
        ≤ effectiveMax mn MAX_NEWS_ITEMS_PER_SECURITY) →
      stf.news_items = st.news_items) ∧
    (skip = false →
      (newsFor st sec.id).length
        = (effectiveMax mn MAX_NEWS_ITEMS_PER_SECURITY).toNat →
      (newsFor stf sec.id).length
        = (effectiveMax mn MAX_NEWS_ITEMS_PER_SECURITY).toNat) := by
  simp only [save_analysis_body, List.contains_nil, Bool.false_eq_true, if_false] at hok
  cases hgoc : sentiment_get_or_create st a.overall_sentiment with
  | error e =>
      simp [hgoc] at hok
  | ok v =>
      obtain ⟨st1, sid, cr1⟩ := v
      simp only [hgoc] at hok
      obtain ⟨hsec1, hsum1, hhl1, hnews1, hev1, hnid1, hclk1, h1s⟩ :=
        goc_post st a.overall_sentiment st1 sid cr1 h1 hgoc
      have h2' : SummariesOneToOne st1 := s12o_of_eq h2 hsum1
      cases huoc : summary_update_or_create st1 sec.id a sid with
      | error e =>
          simp [huoc] at hok
      | ok v2 =>
          obtain ⟨st2, sumId, cr2⟩ := v2
          simp only [huoc] at hok
          obtain ⟨hsec2, hsent2, hhl2, hnews2, hev2, hnid2, hclk2, h2s,
            ⟨r, hrfilter, hrid, hrsec, hrcont⟩, hstable⟩ :=
            uoc_post st1 sec.id a sid st2 sumId cr2 h2' huoc
          obtain ⟨hsec3, hsent3, hsum3, hnews3, hev3, hnid3, hclk3, hhl3⟩ :=
            hl_replace_post st2 sumId a.key_highlights
          cases hmerge : merge_news_items sec.id today
              (key_highlights_replace st2 sumId a.key_highlights) a.recent_news 0 with
          | error e =>
              simp [hmerge] at hok
          | ok v4 =>
              obtain ⟨st4, k4⟩ := v4
              simp only [hmerge] at hok
              cases hok
              obtain ⟨msec, msent, msum, mhl, mev, mnid, mclk, ext, hext, hextsec⟩ :=
                merge_post sec.id today a.recent_news
                  (key_highlights_replace st2 j a.key_highlights) 0 st4 k4 hmerge
              have hnews3' : (key_highlights_replace st2 j a.key_highlights).news_items
                  = st.news_items := by
                rw [hnews3, hnews2, hnews1]
              have hinv3 : NewsInv (key_highlights_replace st2 j a.key_highlights) :=
                newsinv_of_eq hni hnews3'
                  (Nat.le_trans hnid1 (Nat.le_trans hnid2 hnid3))
                  (Nat.le_of_eq (by rw [hclk3, hclk2, hclk1]))
              have hinv4 : NewsInv st4 :=
                merge_newsinv sec.id today a.recent_news _ 0 st4 k4 hmerge hinv3
              have hup4 : ∀ nd ∈ a.recent_news, url_exists st4 nd.url = true :=
                merge_urls_present sec.id today a.recent_news _ 0 st4 k4 hmerge
              obtain ⟨ext2, hext2, hm4⟩ :=
                merge_newsFor sec.id today a.recent_news _ 0 st4 k4 hmerge
              set cN := effectiveMax mn MAX_NEWS_ITEMS_PER_SECURITY with hcN
              set cE := effectiveMax me MAX_UPCOMING_EVENTS_PER_SECURITY with hcE
              set st5 := if skip = true then st4
                else cleanup_news_guarded [] st4 sec.id cN with hst5
              set st6 := append_upcoming_events sec.id st5 a.upcoming_events with hst6
              set st7 := if skip = true then st6
                else cleanup_events_guarded [] st6 sec.id cE with hst7
              obtain ⟨asec, asent, asum, ahl, anews, anid, aclk⟩ :=
                events_append_post sec.id a.upcoming_events st5
              have hst7facts : st7.news_items = st6.news_items ∧
                  st7.sentiments = st6.sentiments ∧
                  st7.summaries = st6.summaries ∧
                  st7.highlights = st6.highlights ∧
                  st7.next_id = st6.next_id ∧ st7.clock = st6.clock := by
                rw [hst7]
                by_cases hskip : skip = true
                · rw [if_pos hskip]
                  exact ⟨rfl, rfl, rfl, rfl, rfl, rfl⟩
                · rw [if_neg hskip, cleanup_events_guarded_nil]
                  obtain ⟨e1, e2, e3, e4, e5, e6, e7⟩ :=
                    cleanup_events_frames st6 sec.id cE
                  exact ⟨e5, e2, e3, e4, e6, e7⟩
              obtain ⟨n76, s76, m76, h76, id76, ck76⟩ := hst7facts
              have hst5facts :
                  st5.news_items.Sublist st4.news_items ∧
                  st5.sentiments = st4.sentiments ∧
                  st5.summaries = st4.summaries ∧ st5.highlights = st4.highlights ∧
                  st5.next_id = st4.next_id ∧ st5.clock = st4.clock := by
                rw [hst5]
                by_cases hskip : skip = true
                · rw [if_pos hskip]
                  exact ⟨List.Sublist.refl _, rfl, rfl, rfl, rfl, rfl⟩
                · rw [if_neg hskip, cleanup_news_guarded_nil]
                  obtain ⟨c1, c2, c3, c4, c5, c6, c7, c8⟩ :=
                    cleanup_news_frames st4 sec.id cN
                  exact ⟨c8, c2, c3, c4, c6, c7⟩
              obtain ⟨h5sub, h5sent, h5sum, h5hl, h5nid, h5clk⟩ := hst5facts
              have hnews75 : st7.news_items = st5.news_items := by
                rw [n76]
                exact anews
              have hinv5 : NewsInv st5 :=
                newsinv_sublist hinv4 h5sub (Nat.le_of_eq h5nid.symm)
                  (Nat.le_of_eq h5clk.symm)
              have hinv6 : NewsInv st6 :=
                newsinv_of_eq hinv5 anews anid aclk
              have hinv7 : NewsInv st7 :=
                newsinv_of_eq hinv6 n76 (Nat.le_of_eq id76.symm)
                  (Nat.le_of_eq ck76.symm)
              have hsent7 : st7.sentiments = st1.sentiments := by
                rw [s76, asent, h5sent, msent, hsent3, hsent2]
              have hsum7 : st7.summaries = st2.summaries := by
                rw [m76, asum, h5sum, msum, hsum3]
              have hhl7 : st7.highlights
                  = (key_highlights_replace st2 j a.key_highlights).highlights := by
                rw [h76, ahl, h5hl, mhl]
              refine ⟨spu_of_eq h1s hsent7, s12o_of_eq h2s hsum7, hinv7,
                ⟨r, ?_, hrid, hrsec, hrcont⟩, ?_, ?_, ?_, ?_, ?_⟩
              · rw [hsum7]
                exact hrfilter
              · intro r0 h0
                apply hstable
                rw [hsum1]
                exact h0
              · rw [hlContent_congr hhl7, hhl3]
              · by_cases hskip : skip = true
                · have h54 : st5 = st4 := by rw [hst5, if_pos hskip]
                  have hn74 : st7.news_items = st4.news_items := by
                    rw [hnews75, h54]
                  exact Or.inl ⟨fun nd hnd => by
                    rw [url_exists_congr hn74]; exact hup4 nd hnd, Or.inl hskip⟩
                · have hskipf : skip = false := by
                    cases skip
                    · rfl
                    · exact absurd rfl hskip
                  have h5c : st5 = cleanup_excess_news_items st4 sec.id cN := by
                    rw [hst5, if_neg hskip, cleanup_news_guarded_nil]
                  by_cases hc4 : ((newsFor st4 sec.id).length : Int) > cN
                  · right
                    refine ⟨hskipf, ?_⟩
                    have htr := cleanup_news_trim st4 sec.id cN hinv4.1 hinv4.2.1 hc4
                    rw [newsFor_congr hnews75, h5c, htr, List.length_drop]
                    omega
                  · have h54 : st5 = st4 := by
                      rw [h5c]
                      exact cleanup_news_noop st4 sec.id cN hc4
                    have hn74 : st7.news_items = st4.news_items := by
                      rw [hnews75, h54]
                    refine Or.inl ⟨fun nd hnd => by
                      rw [url_exists_congr hn74]; exact hup4 nd hnd, Or.inr ?_⟩
                    rw [newsFor_congr hn74]
                    omega
              · intro hall hcap
                have hall3 : ∀ nd ∈ a.recent_news,
                    url_exists (key_highlights_replace st2 j a.key_highlights)
                      nd.url = true := by
                  intro nd hnd
                  rw [url_exists_congr hnews3']
                  exact hall nd hnd
                have hpre := merge_all_present_noop sec.id today a.recent_news
                  (key_highlights_replace st2 j a.key_highlights) 0 hall3
                rw [hmerge] at hpre
                cases hpre
                rw [hnews75]
                by_cases hskip : skip = true
                · rw [hst5, if_pos hskip]
                  exact hnews3'
                · rcases hcap with hc | hc
                  · exact absurd hc hskip
                  · have hle : ¬(((newsFor
                        (key_highlights_replace st2 j a.key_highlights)
                        sec.id).length : Int) > cN) := by
                      rw [newsFor_congr hnews3']
                      omega
                    rw [hst5, if_neg hskip, cleanup_news_guarded_nil,
                      cleanup_news_noop _ sec.id cN hle]
                    exact hnews3'
              · intro hskipf hcount
                have hskip : ¬(skip = true) := by
                  rw [hskipf]
                  simp
                have hlen3 : (newsFor
                    (key_highlights_replace st2 j a.key_highlights)
                    sec.id).length = cN.toNat := by
                  rw [newsFor_congr hnews3']
                  exact hcount
                have hlen4 : (newsFor st4 sec.id).length
                    = cN.toNat + ext2.length := by
                  rw [hm4, List.length_append, hlen3]
                rw [newsFor_congr hnews75]
                by_cases hc4 : ((newsFor st4 sec.id).length : Int) > cN
                · have htr := cleanup_news_trim st4 sec.id cN hinv4.1 hinv4.2.1 hc4
                  rw [hst5, if_neg hskip, cleanup_news_guarded_nil, htr,
                    List.length_drop]
                  omega
                · have h54 : st5 = st4 := by
                    rw [hst5, if_neg hskip, cleanup_news_guarded_nil]
                    exact cleanup_news_noop st4 sec.id cN hc4
                  rw [h54]
                  omega

/-! ## C1 — double ingestion of the same analysis -/

/-- C1 amended.  Ingesting the same analysis result twice in succession
for the same entity yields exactly one AnalysisSummary row for that
entity (not two), leaves the highlight set unchanged in content, and
leaves the news row count unchanged with no duplicate NewsItem rows by
URL.  (Events are excluded: they are appended again by the second call —
see the counterexample.)  The second call may also abort, in which case
the transaction reverts it and the same conclusions hold. -/
theorem C1_amended_double_ingestion
    (today : PyDate) (st0 : Store) (sec : SecurityRow) (a : StructuredStockAnalysis)
    (mn me : Option Int) (skip : Bool)
    (h1 : SentimentPairsUnique st0) (h2 : SummariesOneToOne st0) (hni : NewsInv st0)
    (s1 s2 : Store) (j : Nat) (r2 : Except PyErr Nat)
    (hrun1 : run_ingestion [] today st0 sec a mn me skip = (s1, .ok j))
    (hrun2 : run_ingestion [] today s1 sec a mn me skip = (s2, r2)) :
    (s2.summaries.filter (fun q => q.security_id == sec.id)).length = 1 ∧
    hlContent s2 j = hlContent s1 j ∧
    (newsFor s2 sec.id).length = (newsFor s1 sec.id).length ∧
    (s2.news_items.map (fun q => q.url)).Nodup := by
  unfold run_ingestion at hrun1 hrun2
  cases hbody1 : save_analysis_body [] today st0 sec a mn me skip with
  | error e =>
      rw [hbody1] at hrun1
      simp at hrun1
  | ok v1 =>
      obtain ⟨s1x, j1⟩ := v1
      rw [hbody1] at hrun1
      rw [Prod.mk.injEq] at hrun1
      obtain ⟨hs1, hok1⟩ := hrun1
      rw [Except.ok.injEq] at hok1
      subst hs1
      subst hok1
      obtain ⟨hspu1, hs12o1, hninv1, ⟨rA, hrA, hrAid, hrAsec, hrAcont⟩,
        hstab1, hhlA, hcase1, hnoins1, htrim1⟩ :=
        body_post today st0 sec a mn me skip s1x j1 h1 h2 hni hbody1
      cases hbody2 : save_analysis_body [] today s1x sec a mn me skip with
      | error e =>
          rw [hbody2] at hrun2
          rw [Prod.mk.injEq] at hrun2
          obtain ⟨hs2, -⟩ := hrun2
          subst hs2
          refine ⟨?_, rfl, rfl, hninv1.2.2.1⟩
          rw [hrA]
          rfl
      | ok v2 =>
          obtain ⟨s2x, j2⟩ := v2
          rw [hbody2] at hrun2
          rw [Prod.mk.injEq] at hrun2
          obtain ⟨hs2, -⟩ := hrun2
          subst hs2
          obtain ⟨hspu2, hs12o2, hninv2, ⟨rB, hrB, hrBid, hrBsec, hrBcont⟩,
            hstab2, hhlB, hcase2, hnoins2, htrim2⟩ :=
            body_post today s1x sec a mn me skip s2x j2 hspu1 hs12o1 hninv1 hbody2
          have hj : j2 = j1 := by
            rw [hstab2 rA hrA, hrAid]
          refine ⟨?_, ?_, ?_, hninv2.2.2.1⟩
          · rw [hrB]
            rfl
          · rw [hhlA, hj.symm]
            exact hhlB
          · rcases hcase1 with ⟨hallA, hcapA⟩ | ⟨hskipf, hcountB⟩
            · rw [newsFor_congr (hnoins2 hallA hcapA)]
            · rw [htrim2 hskipf hcountB, hcountB]

/-- Witness for C1 amended: the demo double-ingestion keeps one summary
row, identical highlight content, an unchanged news row count and unique
URLs. -/
theorem C1_amended_witness :
    SentimentPairsUnique baseStore ∧ SummariesOneToOne baseStore ∧ NewsInv baseStore ∧
    ((demoRun2.1.summaries.filter (fun q => q.security_id == secAAPL.id)).length = 1 ∧
     hlContent demoRun2.1 3 = hlContent demoRun1.1 3 ∧
     (newsFor demoRun2.1 secAAPL.id).length = (newsFor demoRun1.1 secAAPL.id).length ∧
     (demoRun2.1.news_items.map (fun q => q.url)).Nodup) :=
  ⟨by unfold SentimentPairsUnique; decide, by unfold SummariesOneToOne; decide,
   by unfold NewsInv; decide,
   C1_amended_double_ingestion demoToday baseStore secAAPL demoAnalysis none none false
     (by unfold SentimentPairsUnique; decide) (by unfold SummariesOneToOne; decide)
     (by unfold NewsInv; decide)
     demoRun1.1 demoRun2.1 3 (.ok 3) rfl rfl⟩
